import Mathlib

/-!
# Spec Recon — a verification development of the core

Shallow embedding of the Spec Recon static-analysis core (Go) in Lean 4:
the data model (`model/node.go`, `model/api.go`), the component pool and
linker (`internal/linker`), and the endpoint & schema extractor
(`internal/analyzer`).  Go strings become Lean `String`, Go maps become
association lists in insertion order (Go's `range` order over a map is
unspecified; where a claim depends on enumeration order this is made
explicit), Go pointers to `Node` become indices into an arena
(`Array Node`), and Go's `regexp` package is embedded as a small
backtracking matcher over the exact patterns the source compiles.
-/

set_option maxRecDepth 10000

namespace SpecRecon

/-! ## Go string helpers (package `strings`)

All helpers are structural recursions over the underlying character lists,
so that concrete runs of the embedding reduce inside the kernel.  The
strings handled by this program are ASCII, so Go's byte indices coincide
with character indices. -/

/-- Whitespace as trimmed by Go `strings.TrimSpace` / split by `Fields`. -/
def goIsSpace (c : Char) : Bool :=
  c = ' ' || c = '\t' || c = '\n' || c = Char.ofNat 11 || c = Char.ofNat 12 || c = '\r'

/-- Go `strings.Contains(s, sub)`: substring containment on char lists. -/
def listContainsSub (s sub : List Char) : Bool :=
  match s with
  | [] => sub.isEmpty
  | _ :: rest => sub.isPrefixOf s || listContainsSub rest sub

/-- Go `strings.Contains(s, sub)`. -/
def goContains (s sub : String) : Bool :=
  listContainsSub s.data sub.data

/-- Go `strings.Index(s, sub)`: index of first occurrence, `none` for Go's -1. -/
def goIndexAux (s sub : List Char) (acc : Nat) : Option Nat :=
  match s with
  | [] => if sub.isEmpty then some acc else none
  | _ :: rest =>
    if sub.isPrefixOf s then some acc else goIndexAux rest sub (acc + 1)

/-- Go `strings.Index`. -/
def goIndex (s sub : String) : Option Nat :=
  goIndexAux s.data sub.data 0

/-- Go `strings.LastIndex(s, sub)`. -/
def goLastIndex (s sub : String) : Option Nat :=
  match goIndex ⟨s.data.reverse⟩ ⟨sub.data.reverse⟩ with
  | none => none
  | some i => some (s.length - i - sub.length)

/-- Go `strings.TrimSpace`. -/
def goTrimSpace (s : String) : String :=
  ⟨((s.data.dropWhile goIsSpace).reverse.dropWhile goIsSpace).reverse⟩

/-- Go `strings.HasPrefix`. -/
def goStartsWith (s px : String) : Bool := px.data.isPrefixOf s.data

/-- Go `strings.HasSuffix`. -/
def goEndsWith (s sfx : String) : Bool := sfx.data.reverse.isPrefixOf s.data.reverse

/-- Go `strings.ToLower` (ASCII). -/
def goToLower (s : String) : String := ⟨s.data.map Char.toLower⟩

/-- Go `strings.ToUpper` (ASCII). -/
def goToUpper (s : String) : String := ⟨s.data.map Char.toUpper⟩

/-- First `n` characters (Go slice `s[:n]`). -/
def goTake (s : String) (n : Nat) : String := ⟨s.data.take n⟩

/-- Drop the first `n` characters (Go slice `s[n:]`). -/
def goDrop (s : String) (n : Nat) : String := ⟨s.data.drop n⟩

/-- Drop the last `n` characters. -/
def goDropRight (s : String) (n : Nat) : String := ⟨s.data.take (s.data.length - n)⟩

/-- Split on a character predicate (helper for Go `strings.Fields`). -/
def splitPAux (p : Char → Bool) : List Char → List Char → List (List Char)
  | [], acc => [acc.reverse]
  | c :: rest, acc =>
    if p c then acc.reverse :: splitPAux p rest [] else splitPAux p rest (c :: acc)

/-- Go `strings.Fields`: split around runs of whitespace. -/
def goFields (s : String) : List String :=
  ((splitPAux goIsSpace s.data []).map (fun l => (⟨l⟩ : String))).filter (fun t => t ≠ "")

/-- Fuel-indexed scanner for Go `strings.Split` with a non-empty separator. -/
def splitOnAux (sep : List Char) : Nat → List Char → List Char → List (List Char)
  | 0, s, acc => [acc.reverse ++ s]
  | _ + 1, [], acc => [acc.reverse]
  | fuel + 1, c :: rest, acc =>
    if sep.isPrefixOf (c :: rest) then
      acc.reverse :: splitOnAux sep fuel ((c :: rest).drop sep.length) []
    else splitOnAux sep fuel rest (c :: acc)

/-- Go `strings.Split` (separators used here are non-empty). -/
def goSplit (s sep : String) : List String :=
  if sep.data.isEmpty then [s]
  else (splitOnAux sep.data (s.length + 1) s.data []).map (fun l => (⟨l⟩ : String))

/-- Fuel-indexed scanner for Go `strings.ReplaceAll` with a non-empty pattern. -/
def replaceAux (pat rep : List Char) : Nat → List Char → List Char
  | 0, s => s
  | _ + 1, [] => []
  | fuel + 1, c :: rest =>
    if pat.isPrefixOf (c :: rest) then
      rep ++ replaceAux pat rep fuel ((c :: rest).drop pat.length)
    else c :: replaceAux pat rep fuel rest

/-- Go `strings.ReplaceAll` (patterns used here are non-empty). -/
def goReplace (s pat rep : String) : String :=
  if pat.data.isEmpty then s
  else ⟨replaceAux pat.data rep.data (s.length + 1) s.data⟩

/-! ## Go maps as association lists

A Go `map` is embedded as a list of key/value pairs in insertion order.
`set` models assignment `m[k] = v` (replace or append); `lookup` models
`v, ok := m[k]`.  Iterating a `GoMap` in list order models one possible
`range` enumeration: Go deliberately leaves the enumeration order of a map
unspecified. -/

abbrev GoMap (α : Type) : Type := List (String × α)

namespace GoMap

def empty {α} : GoMap α := []

def lookup {α} (m : GoMap α) (k : String) : Option α :=
  match m with
  | [] => none
  | (k', v) :: rest => if k' = k then some v else lookup rest k

/-- Go map assignment `m[k] = v`. -/
def set {α} (m : GoMap α) (k : String) (v : α) : GoMap α :=
  match m with
  | [] => [(k, v)]
  | (k', v') :: rest => if k' = k then (k, v) :: rest else (k', v') :: set rest k v

def keys {α} (m : GoMap α) : List String := m.map Prod.fst

/-- Extensional equality of two concrete maps, checked over both key sets. -/
def equivTo {α} [BEq α] (m₁ m₂ : GoMap α) : Bool :=
  (m₁.keys ++ m₂.keys).all (fun k =>
    match lookup m₁ k, lookup m₂ k with
    | some a, some b => a == b
    | none, none => true
    | _, _ => false)

end GoMap

/-! ## Data model (`internal/model/node.go`, `internal/model/api.go`) -/

/-- `model.NodeType`. -/
inductive NodeType where
  | controller
  | service
  | mapper
  | sql
  | util
deriving DecidableEq, Repr, Inhabited

/-- `model.Node`.  Go's `Children []*Node` and `Parent *Node` are pointer
fields; here they are indices into the arena that owns all nodes. -/
structure Node where
  id : String := ""
  type : NodeType := .util
  pkg : String := ""
  file : String := ""
  line : Nat := 0
  method : String := ""
  params : String := ""
  returnDetail : String := ""
  body : String := ""
  comment : String := ""
  children : List Nat := []
  parent : Option Nat := none
  annot : String := ""
  url : String := ""
deriving DecidableEq, Repr, Inhabited

/-- Arena of all allocated `Node` objects; a Go `*Node` is an index. -/
abbrev Arena : Type := List Node

/-- Dereference a node pointer (Go pointers held by pool/maps are valid). -/
def getN (a : Arena) (i : Nat) : Node := (a.get? i).getD default

/-- In-place update through a node pointer (no-op on a dangling index). -/
def arenaModify (a : Arena) (i : Nat) (f : Node → Node) : Arena :=
  a.set i (f (getN a i))

/-- `(*Node).AddChild` from `model/node.go`: reject a child whose `Method`
trims to the empty string; otherwise append the child pointer to
`n.Children` and reassign `child.Parent` to `n`. -/
def addChild (a : Arena) (n child : Nat) : Arena :=
  if (goTrimSpace (getN a child).method).length = 0 then
    a
  else
    arenaModify (arenaModify a n (fun nd => { nd with children := nd.children ++ [child] }))
      child (fun cd => { cd with parent := some n })

/-- `model.IsModelClass`: detect data-carrier classes by id suffix. -/
def IsModelClass (id : String) : Bool :=
  let parts := goSplit id "."
  let candidates :=
    if parts.length ≥ 2 then
      [parts.getD (parts.length - 2) "", parts.getD (parts.length - 1) ""]
    else
      [parts.getD 0 ""]
  let suffixes := ["dto", "vo", "entity", "request", "response", "projection", "exception"]
  candidates.any (fun name =>
    suffixes.any (fun suf => goEndsWith (goToLower name) suf))

/-- `model.ParamDef`. -/
structure ParamDef where
  name : String := ""
  type : String := ""
  «in» : String := ""
  required : Bool := false
  description : String := ""
  depth : Nat := 0
  fields : List ParamDef := []
deriving Inhabited

/-- `model.ResponseDef`. -/
structure ResponseDef where
  type : String := ""
  description : String := ""
  statusCode : Nat := 0
  fields : List ParamDef := []
deriving Inhabited

/-- `model.EndpointDef`. -/
structure EndpointDef where
  method : String := ""
  path : String := ""
  controllerName : String := ""
  methodName : String := ""
  summary : String := ""
  description : String := ""
  params : List ParamDef := []
  response : ResponseDef := {}
deriving Inhabited

/-! ## Embedded regular expressions (Go `regexp`)

The source compiles a fixed set of patterns with `regexp.MustCompile` and
uses `FindStringSubmatch` / `FindAllStringSubmatch` / `MatchString`.
Go's `regexp` has leftmost-first (Perl-style) match semantics, embedded
here as a fuel-bounded backtracking matcher in continuation-passing style.
Each source pattern is rebuilt below as an `RE` syntax tree; its doc
comment quotes the original pattern. -/

/-- Regular-expression syntax: character classes, sequencing, alternation
(preferring the left branch), greedy/lazy star, capture groups, the word
boundary assertion and the start-of-text anchor. -/
inductive RE where
  | eps
  | cls (f : Char → Bool)
  | seq (a b : RE)
  | alt (a b : RE)
  | star (lazy : Bool) (r : RE)
  | group (i : Nat) (r : RE)
  | bound
  | bol

/-- Captured groups: group index paired with captured characters
(most recent capture first). -/
abbrev Caps : Type := List (Nat × List Char)

/-- A match result: captures, the remaining input after the match and the
character just before that remaining input (for `\b` across matches). -/
abbrev MRes : Type := Option (Caps × List Char × Option Char)

/-- `\w` of Go `regexp`: `[0-9A-Za-z_]`. -/
def isWordChar (c : Char) : Bool := c.isAlpha || c.isDigit || c = '_'

/-- `\s` of Go `regexp`: `[\t\n\f\r ]`. -/
def isGoSpace (c : Char) : Bool :=
  c = ' ' || c = '\t' || c = '\n' || c = Char.ofNat 12 || c = '\r'

/-- Backtracking matcher.  `prev` is the character just before the current
position (used by `\b` and `^`); the continuation `k` receives the input
remaining after the piece matched so far.  Fuel bounds the total number of
engine steps; every pattern used here succeeds or fails well within it. -/
def reRun : Nat → RE → List Char → Option Char → Caps →
    (List Char → Option Char → Caps → MRes) → MRes
  | 0, _, _, _, _, _ => none
  | fuel + 1, r, s, prev, caps, k =>
    match r with
    | .eps => k s prev caps
    | .cls f =>
      match s with
      | [] => none
      | c :: rest => if f c then k rest (some c) caps else none
    | .seq a b => reRun fuel a s prev caps (fun s' p' c' => reRun fuel b s' p' c' k)
    | .alt a b =>
      match reRun fuel a s prev caps k with
      | some res => some res
      | none => reRun fuel b s prev caps k
    | .star lz inner =>
      if lz then
        match k s prev caps with
        | some res => some res
        | none =>
          reRun fuel inner s prev caps (fun s' p' c' =>
            if s'.length < s.length then reRun fuel (.star lz inner) s' p' c' k else none)
      else
        match reRun fuel inner s prev caps (fun s' p' c' =>
            if s'.length < s.length then reRun fuel (.star lz inner) s' p' c' k else none) with
        | some res => some res
        | none => k s prev caps
    | .group i inner =>
      reRun fuel inner s prev caps (fun s' p' c' =>
        k s' p' ((i, s.take (s.length - s'.length)) :: c'))
    | .bound =>
      let w1 := match prev with | some c => isWordChar c | none => false
      let w2 := match s with | c :: _ => isWordChar c | [] => false
      if w1 ≠ w2 then k s prev caps else none
    | .bol =>
      match prev with
      | none => k s prev caps
      | some _ => none

/-- Engine fuel: generous bound on backtracking steps for one anchor point. -/
def reFuel : Nat := 1000000

/-- Find the leftmost match: try each start position left to right. -/
def reFindFrom (r : RE) : List Char → Option Char → MRes
  | s, prev =>
    match reRun reFuel r s prev [] (fun rest p c => some (c, rest, p)) with
    | some res => some res
    | none =>
      match s with
      | [] => none
      | c :: rest => reFindFrom r rest (some c)

/-- Go `FindStringSubmatch`: captures of the leftmost match, if any. -/
def reFind (r : RE) (s : String) : Option Caps :=
  match reFindFrom r s.data none with
  | some (caps, _, _) => some caps
  | none => none

/-- Go `MatchString`. -/
def reMatch (r : RE) (s : String) : Bool := (reFind r s).isSome

/-- Go `FindAllStringSubmatch`: successive non-overlapping leftmost matches. -/
def reFindAllAux (r : RE) : Nat → List Char → Option Char → List Caps
  | 0, _, _ => []
  | fuel + 1, s, prev =>
    match reFindFrom r s prev with
    | none => []
    | some (caps, rest, p) =>
      if rest.length < s.length then caps :: reFindAllAux r fuel rest p
      else [caps]

def reFindAll (r : RE) (s : String) : List Caps :=
  reFindAllAux r (s.length + 1) s.data none

/-- Look up capture group `i` (empty when the group did not participate). -/
def capGet (caps : Caps) (i : Nat) : String :=
  match caps.find? (fun kv => kv.fst = i) with
  | some kv => ⟨kv.snd⟩
  | none => ""

/-! ### Pattern combinators -/

/-- Single literal character. -/
def rchar (c : Char) : RE := .cls (fun x => x = c)

/-- Literal string. -/
def rstr (s : String) : RE := (s.data.map rchar).foldr .seq .eps

/-- Sequence of pieces. -/
def rseq (l : List RE) : RE := l.foldr .seq .eps

/-- One-or-more, greedy. -/
def rplus (r : RE) : RE := .seq r (.star false r)

/-- Zero-or-more, greedy. -/
def rstarG (r : RE) : RE := .star false r

/-- Zero-or-more, lazy. -/
def rstarL (r : RE) : RE := .star true r

/-- Optional, greedy (`?`). -/
def ropt (r : RE) : RE := .alt r .eps

/-- Character in a one-of set. -/
def roneOf (cs : List Char) : RE := .cls (fun x => cs.contains x)

/-- `.` with dot-matches-newline off: any character but newline. -/
def rdot : RE := .cls (fun c => c ≠ '\n')

/-- `.` under `(?s)`: any character. -/
def rdotS : RE := .cls (fun _ => true)

/-- `\w`. -/
def rw : RE := .cls isWordChar

/-- `\s`. -/
def rs : RE := .cls isGoSpace

/-- `[A-Z]`. -/
def rupper : RE := .cls (fun c => 'A' ≤ c && c ≤ 'Z')

/-- `[a-zA-Z0-9_]`. -/
def ralnumU : RE := .cls (fun c => c.isAlpha || c.isDigit || c = '_')

/-- `[a-zA-Z0-9_<>]`. -/
def ralnumUG : RE := .cls (fun c => c.isAlpha || c.isDigit || c = '_' || c = '<' || c = '>')

/-- `[a-zA-Z0-9_<>,\s.]` (the loose type-expression class). -/
def rtypeC : RE := .cls (fun c =>
  c.isAlpha || c.isDigit || c = '_' || c = '<' || c = '>' || c = ',' || isGoSpace c || c = '.')

/-- `[A-Z][a-zA-Z0-9_<>]*` (declared-type head in back-trace patterns). -/
def rdeclType : RE := .seq rupper (rstarG ralnumUG)

/-- `[a-zA-Z0-9_<>\[\]]+` (type with generics and arrays). -/
def rtypeBr : RE := rplus (.cls (fun c =>
  c.isAlpha || c.isDigit || c = '_' || c = '<' || c = '>' || c = '[' || c = ']'))

/-- `\d`. -/
def rdigit : RE := .cls Char.isDigit

/-- Opening parenthesis, escaped in the sources as `\(`. -/
def rlp : RE := rchar '('

/-- Closing parenthesis `\)`. -/
def rrp : RE := rchar ')'

/-! ## Parsed Java structures (`internal/javaparser/parser.go`) -/

/-- `javaparser.Annotation` (attribute map in insertion order). -/
structure Annot where
  name : String := ""
  attributes : GoMap String := []
  raw : String := ""

/-- `javaparser.Field`. -/
structure JField where
  name : String := ""
  type : String := ""
  annots : List Annot := []

/-- `javaparser.Method`. -/
structure JMethod where
  name : String := ""
  params : String := ""
  paramsList : List String := []
  returnType : String := ""
  annots : List Annot := []
  javaDoc : String := ""
  body : String := ""

/-- `javaparser.JavaClass`. -/
structure JavaClass where
  pkg : String := ""
  name : String := ""
  imports : List String := []
  annots : List Annot := []
  fields : List JField := []
  methods : List JMethod := []

/-- Go pattern `@\w+\s*\(\s*"([^"]+)"\s*\)` (simple annotation value). -/
def patAnnotValueSimple : RE :=
  rseq [rchar '@', rplus rw, rstarG rs, rlp, rstarG rs, rchar (Char.ofNat 34),
    .group 1 (rplus (.cls (fun c => c ≠ Char.ofNat 34))), rchar (Char.ofNat 34), rstarG rs, rrp]

/-- Go pattern `value\s*=\s*"([^"]+)"`. -/
def patAnnotValueAttr : RE :=
  rseq [rstr "value", rstarG rs, rchar '=', rstarG rs, rchar (Char.ofNat 34),
    .group 1 (rplus (.cls (fun c => c ≠ Char.ofNat 34))), rchar (Char.ofNat 34)]

/-- Go pattern `path\s*=\s*"([^"]+)"`. -/
def patAnnotValuePath : RE :=
  rseq [rstr "path", rstarG rs, rchar '=', rstarG rs, rchar (Char.ofNat 34),
    .group 1 (rplus (.cls (fun c => c ≠ Char.ofNat 34))), rchar (Char.ofNat 34)]

/-- `javaparser.extractAnnotationValue`: try the simple, `value=`, `path=`
patterns in order. -/
def extractAnnotValue (annotText : String) : String :=
  match reFind patAnnotValueSimple annotText with
  | some caps => capGet caps 1
  | none =>
    match reFind patAnnotValueAttr annotText with
    | some caps => capGet caps 1
    | none =>
      match reFind patAnnotValuePath annotText with
      | some caps => capGet caps 1
      | none => ""

/-- `javaparser.combineURLPaths`. -/
def combineURLPaths (classPath methodPath : String) : String :=
  let classPath := goTrimSpace classPath
  let methodPath := goTrimSpace methodPath
  if classPath = "" then methodPath
  else if methodPath = "" then classPath
  else
    let classPath := if goEndsWith classPath "/" then goDropRight classPath 1 else classPath
    let methodPath := if goStartsWith methodPath "/" then goDrop methodPath 1 else methodPath
    classPath ++ "/" ++ methodPath

/-- `(*JavaClass).GetClassLevelURL`: value of the first `RequestMapping`
annotation (attribute `value`, else the raw-text fallback). -/
def getClassLevelURL : List Annot → String
  | [] => ""
  | ann :: rest =>
    if ann.name = "RequestMapping" then
      match ann.attributes.lookup "value" with
      | some v => v
      | none => extractAnnotValue ann.raw
    else getClassLevelURL rest

/-- The method-path scan inside `(*Method).GetMethodURL`. -/
def methodURLPath : List Annot → String
  | [] => ""
  | ann :: rest =>
    if goEndsWith ann.name "Mapping" then
      match ann.attributes.lookup "value" with
      | some v => v
      | none =>
        let mp := extractAnnotValue ann.raw
        if mp ≠ "" then mp else methodURLPath rest
    else methodURLPath rest

/-- `(*Method).GetMethodURL`. -/
def getMethodURL (m : JMethod) (classPath : String) : String :=
  combineURLPaths classPath (methodURLPath m.annots)

/-- `(*Method).GetHTTPMethod`. -/
def getHTTPMethod : List Annot → String
  | [] => ""
  | ann :: rest =>
    if ann.name = "GetMapping" then "GET"
    else if ann.name = "PostMapping" then "POST"
    else if ann.name = "PutMapping" then "PUT"
    else if ann.name = "DeleteMapping" then "DELETE"
    else if ann.name = "PatchMapping" then "PATCH"
    else if ann.name = "RequestMapping" then
      match ann.attributes.lookup "method" with
      | some mth =>
        let mth :=
          if goContains mth "." then (goSplit mth ".").getLastD "" else mth
        goToUpper mth
      | none => "GET"
    else getHTTPMethod rest

/-! ## Component pool (`internal/linker/pool.go`) -/

/-- `linker.ComponentPool`: the five indexes plus raw sources.  Node values
live in the arena; the maps hold node pointers (arena indices). -/
structure ComponentPool where
  nodes : Arena := []
  classMap : GoMap Nat := []
  methodMap : GoMap Nat := []
  methodBodyMap : GoMap String := []
  sqlMap : GoMap Nat := []
  fieldTypeMap : GoMap (GoMap String) := []
  sourceMap : GoMap String := []

/-- `linker.determineNodeType`: annotation first, then class-name suffix. -/
def determineNodeType (jc : JavaClass) : NodeType :=
  match jc.annots.findSome? (fun ann =>
    if ann.name = "Controller" ∨ ann.name = "RestController" then some NodeType.controller
    else if ann.name = "Service" then some NodeType.service
    else if ann.name = "Repository" ∨ ann.name = "Mapper" then some NodeType.mapper
    else none) with
  | some t => t
  | none =>
    if goEndsWith jc.name "Controller" then .controller
    else if goEndsWith jc.name "Service" then .service
    else if goEndsWith jc.name "Mapper" ∨ goEndsWith jc.name "Repository" then .mapper
    else .util

/-- `linker.extractSimpleTypeName`: last dot-separated part, trimmed
(generics deliberately preserved). -/
def extractSimpleTypeName (fullType : String) : String :=
  goTrimSpace ((goSplit fullType ".").getLastD "")

/-- `linker.extractURL` (class path + method path). -/
def extractURL (jc : JavaClass) (m : JMethod) : String :=
  getMethodURL m (getClassLevelURL jc.annots)

/-- One method of `(*ComponentPool).AddJavaClass`'s method loop: create
the method node (inheriting the class tag, parented to the class node),
append it to the class node's children, and index it. -/
def addMethodStep (jc : JavaClass) (fullClassName : String) (classIdx : Nat)
    (clsType : NodeType) (st : Arena × GoMap Nat × GoMap String) (method : JMethod) :
    Arena × GoMap Nat × GoMap String :=
  let methodKey := fullClassName ++ "." ++ method.name
  let mIdx := st.1.length
  let methodNode : Node :=
    { id := methodKey, type := clsType, pkg := jc.pkg,
      method := method.name, params := method.params,
      returnDetail := method.returnType, body := method.body,
      url := extractURL jc method, annot := getHTTPMethod method.annots,
      children := [], parent := some classIdx }
  (arenaModify (st.1 ++ [methodNode]) classIdx
      (fun n => { n with children := n.children ++ [mIdx] }),
    st.2.1.set methodKey mIdx, st.2.2.set methodKey method.body)

/-- `(*ComponentPool).AddJavaClass`: create the class node, register field
types, then create one method node per method (inheriting the class type,
parented to the class node and appended to its children). -/
def addJavaClass (pool : ComponentPool) (jc : JavaClass) (sourceContent : String) :
    ComponentPool :=
  let fullClassName := jc.pkg ++ "." ++ jc.name
  let classIdx := pool.nodes.length
  let classNode : Node :=
    { id := fullClassName, type := determineNodeType jc, pkg := jc.pkg,
      method := "", children := [] }
  let nodes0 := pool.nodes ++ [classNode]
  let classMap := pool.classMap.set fullClassName classIdx
  let sourceMap := pool.sourceMap.set fullClassName sourceContent
  let fieldTypes : GoMap String :=
    jc.fields.foldl (fun m f => m.set f.name (extractSimpleTypeName f.type)) GoMap.empty
  let fieldTypeMap := pool.fieldTypeMap.set fullClassName fieldTypes
  let st :=
    jc.methods.foldl (addMethodStep jc fullClassName classIdx classNode.type)
      (nodes0, pool.methodMap, pool.methodBodyMap)
  { pool with
    nodes := st.1
    classMap := classMap
    methodMap := st.2.1
    methodBodyMap := st.2.2
    fieldTypeMap := fieldTypeMap
    sourceMap := sourceMap }

/-- `xmlparser.SQL`. -/
structure SQLStmt where
  id : String := ""
  type : String := ""
  content : String := ""

/-- `xmlparser.MapperXML`. -/
structure MapperXML where
  ns : String := ""
  sqls : List SQLStmt := []

/-- One statement of `(*ComponentPool).AddMapperXML`'s loop. -/
def addSQLStep (ns : String) (pool : ComponentPool) (sql : SQLStmt) : ComponentPool :=
  let sqlKey := ns ++ "." ++ sql.id
  let sqlNode : Node :=
    { id := sqlKey, type := .sql, pkg := ns, method := sql.id,
      comment := sql.content, children := [] }
  { pool with
    nodes := pool.nodes ++ [sqlNode]
    sqlMap := pool.sqlMap.set sqlKey pool.nodes.length }

/-- `(*ComponentPool).AddMapperXML`: one SQL node per statement, keyed
`namespace + "." + id`, query text carried in the comment slot. -/
def addMapperXML (pool : ComponentPool) (mx : MapperXML) : ComponentPool :=
  mx.sqls.foldl (addSQLStep mx.ns) pool

/-- `(*ComponentPool).GetClass`. -/
def getClass (pool : ComponentPool) (fullClassName : String) : Option Nat :=
  pool.classMap.lookup fullClassName

/-- `(*ComponentPool).GetMethod`. -/
def getMethod (pool : ComponentPool) (fullMethodKey : String) : Option Nat :=
  pool.methodMap.lookup fullMethodKey

/-- `(*ComponentPool).GetSQL`. -/
def getSQL (pool : ComponentPool) (ns id : String) : Option Nat :=
  pool.sqlMap.lookup (ns ++ "." ++ id)

/-- `(*ComponentPool).GetFieldType` (Go's missing-key zero value is ""). -/
def getFieldType (pool : ComponentPool) (fullClassName fieldName : String) : String :=
  match pool.fieldTypeMap.lookup fullClassName with
  | some fieldTypes => (fieldTypes.lookup fieldName).getD ""
  | none => ""

/-- `linker.extractPackage`. -/
def extractPackage (fullClassName : String) : String :=
  match goLastIndex fullClassName "." with
  | none => ""
  | some i => goTake fullClassName i

/-- `(*ComponentPool).ResolveFieldType`: raw field type, generics stripped,
same-package candidate first, then simple-name scan over the class index. -/
def resolveFieldType (pool : ComponentPool) (fullClassName fieldName : String) : String :=
  let rawType := getFieldType pool fullClassName fieldName
  if rawType = "" then ""
  else
    let searchType :=
      match goIndex rawType "<" with
      | some idx => goTake rawType idx
      | none => rawType
    let pkg := extractPackage fullClassName
    let candidate := pkg ++ "." ++ searchType
    if (getClass pool candidate).isSome then candidate
    else
      match pool.classMap.keys.find? (fun fullName => extractSimpleTypeName fullName = searchType) with
      | some fullName => fullName
      | none => ""

/-- `(*ComponentPool).FindMethodByName`: exact keyed match first, else all
keys with the class prefix whose key contains the method name. -/
def findMethodByName (pool : ComponentPool) (fullClassName methodName : String) : List Nat :=
  let exactKey := fullClassName ++ "." ++ methodName
  match pool.methodMap.lookup exactKey with
  | some node => [node]
  | none =>
    let px := fullClassName ++ "."
    pool.methodMap.foldl
      (fun acc kv =>
        if goStartsWith kv.fst px ∧ goContains kv.fst methodName then acc ++ [kv.snd] else acc)
      []

/-! ## Linker (`internal/linker/linker.go`) -/

/-- `linker.MethodCall` (`Variable`, `MethodName`, `IsStatic`). -/
structure MethodCall where
  varName : String
  methodName : String
  isStatic : Bool

/-- Go pattern `(\w+)\.(\w+)\s*\(` (instance-call heuristic). -/
def patInstanceCall : RE :=
  rseq [.group 1 (rplus rw), rchar '.', .group 2 (rplus rw), rstarG rs, rlp]

/-- Go pattern `([A-Z]\w+)\.(\w+)\s*\(` (static-call heuristic). -/
def patStaticCall : RE :=
  rseq [.group 1 (.seq rupper (rplus rw)), rchar '.', .group 2 (rplus rw), rstarG rs, rlp]

/-- `linker.FindMethodCalls`: all matches of the instance pattern followed
by all matches of the static pattern. -/
def findMethodCalls (source : String) : List MethodCall :=
  (reFindAll patInstanceCall source).map
      (fun caps => MethodCall.mk (capGet caps 1) (capGet caps 2) false)
    ++
    (reFindAll patStaticCall source).map
      (fun caps => MethodCall.mk (capGet caps 1) (capGet caps 2) true)

/-- `linker.IgnoredTokens` (blocklist map). -/
def IgnoredTokens (s : String) : Bool :=
  [ "if", "else", "for", "while", "switch", "case", "try", "catch", "finally",
    "synchronized", "return", "throw", "throws", "assert", "break", "continue", "do",
    "new", "this", "super",
    "println", "print", "printf", "info", "debug", "warn", "error", "trace", "log",
    "out", "err",
    "System", "String", "Integer", "Long", "Double", "Boolean", "Object", "Class",
    "Exception",
    "ModelAndView", "Model", "View", "RedirectView" ].contains s

/-- `linker.isConstructorCall`. -/
def isConstructorCall (varName : String) : Bool :=
  IgnoredTokens varName ||
    [ "ResponseEntity", "HttpEntity", "ArrayList", "HashMap", "HashSet",
      "LinkedList", "TreeMap", "TreeSet", "Date", "SimpleDateFormat",
      "StringBuilder", "StringBuffer" ].contains varName

/-- `linker.isValidJavaIdentifier`: `[a-zA-Z_$][a-zA-Z0-9_$]*`. -/
def isValidJavaIdentifier (name : String) : Bool :=
  match name.data with
  | [] => false
  | c :: rest =>
    (c.isAlpha || c = '_' || c = '$') &&
      rest.all (fun ch => ch.isAlpha || ch.isDigit || ch = '_' || ch = '$')

/-- `linker.isLetter`. -/
def isLetterAZ (c : Char) : Bool :=
  ('a' ≤ c && c ≤ 'z') || ('A' ≤ c && c ≤ 'Z')

/-- `linker.IsInvalidToken`: strict keyword blocklist, keyword-prefix check
and Exception/Error suffixes. -/
def IsInvalidToken (name : String) : Bool :=
  if name = "" then true
  else
    let lower := goToLower name
    let strictBlocklist :=
      [ "if", "else", "for", "while", "do", "switch", "case", "default", "return",
        "throw", "throws", "new", "try", "catch", "finally", "synchronized", "assert",
        "break", "continue", "goto", "instanceof", "this", "super", "null", "true",
        "false" ]
    if strictBlocklist.contains lower then true
    else
      let keywordPrefixes :=
        [ "if", "for", "while", "switch", "catch", "synchronized", "return", "throw",
          "assert", "new", "instanceof" ]
      if keywordPrefixes.any (fun px =>
          goStartsWith lower px &&
            (lower = px ||
              (lower.length > px.length && !isLetterAZ (lower.data.getD px.length ' ')))) then
        true
      else
        goEndsWith name "Exception" || goEndsWith name "Error"

/-- `linker.IsValidMethodCall`: keyword and Exception/Error filters. -/
def IsValidMethodCall (name : String) : Bool :=
  if name = "" then false
  else
    let javaKeywords :=
      [ "if", "else", "for", "while", "switch", "case", "default", "try", "catch",
        "finally", "synchronized", "return", "throw", "throws", "new", "super",
        "this", "break", "continue", "do", "instanceof", "assert" ]
    if javaKeywords.contains name then false
    else if goEndsWith name "Exception" then false
    else if goEndsWith name "Error" then false
    else true

/-- `linker.IsDataClass`: data-class package markers. -/
def IsDataClass (packageName : String) : Bool :=
  if packageName = "" then false
  else
    let lower := goToLower packageName
    [".model", ".vo", ".dto", ".domain", ".entity", ".bean"].any
      (fun pat => goContains lower pat)

/-- `(*Linker).findClassBySimpleName`. -/
def findClassBySimpleName (pool : ComponentPool) (simpleName : String) : String :=
  if (pool.classMap.lookup simpleName).isSome then simpleName
  else
    match pool.classMap.keys.find? (fun fullName => extractSimpleTypeName fullName = simpleName) with
    | some fullName => fullName
    | none => ""

/-- The return-type filter normalization inside `linkJavaMethods`: strip a
generic suffix when `<` is at a positive index, then keep the part after
the last dot. -/
def stripReturnTypeName (returnType : String) : String :=
  let returnType :=
    match goIndex returnType "<" with
    | some idx => if idx > 0 then goTake returnType idx else returnType
    | none => returnType
  match goLastIndex returnType "." with
  | some idx => goDrop returnType (idx + 1)
  | none => returnType

/-- One call site of `(*Linker).linkJavaMethods`' inner loop: apply the
filter chain and attach any resolved targets to the calling method node. -/
def linkOneCall (pool : ComponentPool) (nodes : Arena) (mIdx : Nat)
    (fullClassName : String) (call : MethodCall) : Arena :=
  if ¬ isValidJavaIdentifier call.varName ∨ ¬ isValidJavaIdentifier call.methodName then nodes
  else if IsInvalidToken call.varName ∨ IsInvalidToken call.methodName then nodes
  else if IgnoredTokens call.varName ∨ IgnoredTokens call.methodName then nodes
  else if ¬ IsValidMethodCall call.varName ∨ ¬ IsValidMethodCall call.methodName then nodes
  else if call.isStatic ∧ isConstructorCall call.varName then nodes
  else if
      call.isStatic ∧ (getN nodes mIdx).returnDetail ≠ "" ∧
        call.varName =
          stripReturnTypeName (getN nodes mIdx).returnDetail then nodes
  else
    let targetNodes : List Nat :=
      if call.isStatic then
        let targetClass := findClassBySimpleName pool call.varName
        if targetClass ≠ "" then
          if IsDataClass targetClass then []
          else findMethodByName pool targetClass call.methodName
        else []
      else
        let variableType := resolveFieldType pool fullClassName call.varName
        if variableType ≠ "" then
          if IsDataClass variableType then []
          else findMethodByName pool variableType call.methodName
        else []
    targetNodes.foldl (fun nodes target => addChild nodes mIdx target) nodes

/-- One entry of `(*Linker).linkJavaMethods`' outer loop: the entry's key
is the method key, its value the method node; the class name is the key up
to its last dot. -/
def javaLinkStep (pool : ComponentPool) (nodes : Arena) (kv : String × Nat) : Arena :=
  if (pool.methodBodyMap.lookup kv.fst).getD "" = "" then nodes
  else
    match goLastIndex kv.fst "." with
    | none => nodes
    | some lastDot =>
      (findMethodCalls ((pool.methodBodyMap.lookup kv.fst).getD "")).foldl
        (fun nodes call => linkOneCall pool nodes kv.snd (goTake kv.fst lastDot) call)
        nodes

/-- `(*Linker).linkJavaMethods`: trace the calls of every method body and
attach resolved targets as children. -/
def linkJavaMethods (pool : ComponentPool) : ComponentPool :=
  { pool with nodes := pool.methodMap.foldl (javaLinkStep pool) pool.nodes }

/-- One entry of `(*Linker).linkMappersToXML`'s loop. -/
def mapperLinkStep (pool : ComponentPool) (nodes : Arena) (kv : String × Nat) : Arena :=
  match goLastIndex kv.fst "." with
  | none => nodes
  | some lastDot =>
    match pool.classMap.lookup (goTake kv.fst lastDot) with
    | none => nodes
    | some cIdx =>
      if (getN nodes cIdx).type = NodeType.mapper then
        match pool.sqlMap.lookup (goTake kv.fst lastDot ++ "." ++ (getN nodes kv.snd).method) with
        | some sqlIdx => addChild nodes kv.snd sqlIdx
        | none => nodes
      else nodes

/-- `(*Linker).linkMappersToXML`: for every method of a MAPPER class, look
up `<className>.<methodName>` in the SQL index and attach the hit. -/
def linkMappersToXML (pool : ComponentPool) : ComponentPool :=
  { pool with nodes := pool.methodMap.foldl (mapperLinkStep pool) pool.nodes }

/-- `(*Linker).Link`: java-method linking, then mapper-to-SQL linking. -/
def link (pool : ComponentPool) : ComponentPool :=
  linkMappersToXML (linkJavaMethods pool)

/-- `(*Linker).GetAllNodes`: the class nodes, in class-index order. -/
def getAllNodes (pool : ComponentPool) : List Nat :=
  pool.classMap.foldl (fun acc kv => acc ++ [kv.snd]) []

/-! ## Endpoint & schema extractor (`internal/analyzer`, api extraction) -/

/-- `analyzer.isComplexType`: anything outside the primitive/wrapper set,
generics stripped first. -/
def isComplexType (typeName : String) : Bool :=
  let primitives :=
    [ "String", "int", "Integer", "long", "Long", "double", "Double", "float",
      "Float", "boolean", "Boolean", "char", "Character" ]
  let typeName :=
    match goIndex typeName "<" with
    | some idx => if idx > 0 then goTake typeName idx else typeName
    | none => typeName
  ¬ primitives.contains typeName

/-- `analyzer.isJavaKeyword`: the extractor's endpoint-name blocklist
(keywords, modifiers and a few view types), case-insensitive. -/
def isJavaKeyword (name : String) : Bool :=
  if name = "" then false
  else
    [ "if", "else", "for", "while", "do", "switch", "case", "default", "return",
      "throw", "throws", "new", "try", "catch", "finally", "synchronized", "assert",
      "break", "continue", "goto", "instanceof", "this", "super", "null", "true",
      "false", "void", "class", "interface", "enum", "extends", "implements",
      "import", "package", "private", "protected", "public", "static", "final",
      "abstract", "native", "strictfp", "transient", "volatile",
      "modelandview", "model", "view", "redirectview" ].contains (goToLower name)

/-- One pass of `analyzer.cleanTypeName`'s generic-stripping loop. -/
def cleanTypeNameLoop : Nat → String → String
  | 0, cleaned => cleaned
  | fuel + 1, cleaned =>
    if goContains cleaned "<" ∧ goContains cleaned ">" then
      match goIndex cleaned "<", goLastIndex cleaned ">" with
      | some startIdx, some endIdx =>
        if endIdx > startIdx then
          let genericContent := goTake (goDrop cleaned (startIdx + 1)) (endIdx - startIdx - 1)
          let parts := goSplit genericContent ","
          cleanTypeNameLoop fuel (goTrimSpace (parts.getLastD ""))
        else cleaned
      | _, _ => cleaned
    else cleaned

/-- `analyzer.cleanTypeName`: drop array notation, then repeatedly take the
last type argument of the outermost generic brackets. -/
def cleanTypeName (raw : String) : String :=
  let cleaned := goTrimSpace raw
  let cleaned := goReplace cleaned "[]" ""
  cleanTypeNameLoop (cleaned.length + 1) cleaned

/-- `analyzer.isSystemType`. -/
def isSystemType (name : String) : Bool :=
  [ "void", "int", "long", "double", "float", "boolean", "char",
    "String", "Integer", "Long", "Double", "Float", "Boolean", "Character",
    "List", "Set", "Map", "Optional",
    "HttpServletRequest", "HttpServletResponse", "ServletRequest", "ServletResponse",
    "Model", "ModelAndView", "ResponseEntity", "HttpEntity",
    "new", "Object" ].contains name

/-- `analyzer.isDynamicType`: type variables, Object, and Map flavors. -/
def isDynamicType (typeName : String) : Bool :=
  if typeName = "" then false
  else
    let lower := goToLower typeName
    if typeName = "?" ∨ typeName = "T" ∨ typeName = "E" ∨ typeName = "K" ∨ typeName = "V" then
      true
    else if typeName = "Object" ∨ typeName = "java.lang.Object" then true
    else
      ["map", "hashmap", "linkedhashmap", "treemap", "concurrenthashmap"].any
        (fun px => goStartsWith lower px)

/-- `analyzer.getInnerType`: the text inside the outermost generic brackets. -/
def getInnerType (typeStr : String) : String :=
  match goIndex typeStr "<", goLastIndex typeStr ">" with
  | some s, some e => if e > s then goTrimSpace (goTake (goDrop typeStr (s + 1)) (e - s - 1)) else ""
  | _, _ => ""

/-- `analyzer.isCollectionType`. -/
def isCollectionType (typeName : String) : Bool :=
  if typeName = "" then false
  else
    let lower := goToLower typeName
    if lower = "list" ∨ lower = "set" ∨ lower = "collection" ∨ lower = "iterable" ∨
        lower = "page" then true
    else if
        [ "list<", "arraylist<", "linkedlist<", "set<", "hashset<", "treeset<",
          "collection<", "iterable<", "page<", "slice<" ].any
          (fun px => goStartsWith lower px) then true
    else goContains lower ".list" ∨ goContains lower ".set"

/-- `analyzer.applyTypeHeuristics`: force primitive types for pagination keys. -/
def applyTypeHeuristics (key currentType : String) : String :=
  let lowerKey := goToLower key
  if lowerKey = "totalelements" ∨ lowerKey = "totalpages" ∨ lowerKey = "totalcount" then "long"
  else if lowerKey = "size" ∨ lowerKey = "page" ∨ lowerKey = "number" ∨
      lowerKey = "numberofelements" then "int"
  else currentType

/-- `analyzer.deduplicateFields`: unique by name; a concrete type may
overwrite a vague (Object / raw Map) one, otherwise first write wins. -/
def deduplicateFields (fields : List ParamDef) : List ParamDef :=
  fields.foldl
    (fun unique f =>
      match unique.findIdx? (fun u => u.name = f.name) with
      | some idx =>
        let existing := (unique.get? idx).getD default
        let isExistingVague :=
          existing.type = "Object" ∨ existing.type = "java.lang.Object" ∨ existing.type = "Map"
        let isNewConcrete :=
          f.type ≠ "Object" ∧ f.type ≠ "java.lang.Object" ∧ f.type ≠ "Map"
        if isExistingVague ∧ isNewConcrete then unique.set idx f else unique
      | none => unique ++ [f])
    []

/-- `analyzer.resolveSchemaRecursive`: depth-capped, cycle-guarded
flattening of a complex type's fields.  The per-call `visited` set with
deferred deletion in Go is the immutable `visited` list here; map
enumeration follows the association-list order. -/
def resolveSchemaRecursive :
    Nat → String → GoMap Nat → GoMap (GoMap String) → Nat → List String → List ParamDef
  | 0, _, _, _, _, _ => []
  | fuel + 1, typeName, classMap, fieldTypeMap, depth, visited =>
    if depth > 5 then []
    else
      let collInner := if isCollectionType typeName then getInnerType typeName else ""
      if collInner ≠ "" then
        resolveSchemaRecursive fuel collInner classMap fieldTypeMap depth visited
      else
        let cleanType := cleanTypeName typeName
        if visited.contains cleanType then []
        else
          let visited := cleanType :: visited
          if isDynamicType cleanType then
            [ { name := "(Dynamic)", type := "Map / JSON Object", depth := depth,
                description := "Structure varies dynamically (Key-Value pairs).",
                fields := [] } ]
          else if isSystemType cleanType then []
          else
            let matched : Option String :=
              if (classMap.lookup cleanType).isSome then some cleanType
              else classMap.keys.find? (fun key => goEndsWith key ("." ++ cleanType))
            match matched with
            | none => []
            | some matchedKey =>
              let fieldTypes : Option (GoMap String) :=
                match fieldTypeMap.lookup matchedKey with
                | some ft => some ft
                | none =>
                  (fieldTypeMap.find? (fun kv => goEndsWith kv.fst ("." ++ cleanType))).map Prod.snd
              match fieldTypes with
              | none => []
              | some ft =>
                ft.foldl
                  (fun results kv =>
                    let fieldName := kv.fst
                    let fieldType := kv.snd
                    let paramDef : ParamDef :=
                      { name := fieldName, type := fieldType, depth := depth,
                        description := "Field of " ++ cleanType, fields := [] }
                    let results := results ++ [paramDef]
                    if isComplexType fieldType then
                      results ++
                        resolveSchemaRecursive fuel fieldType classMap fieldTypeMap
                          (depth + 1) visited
                    else results)
                  []

/-- Fuel for schema recursion: the Go recursion is bounded by the depth cap
and visited set; this bound is far beyond anything those allow. -/
def schemaFuel : Nat := 1000

/-- `analyzer.resolveSchema`. -/
def resolveSchema (typeName : String) (classMap : GoMap Nat)
    (fieldTypeMap : GoMap (GoMap String)) : List ParamDef :=
  deduplicateFields (resolveSchemaRecursive schemaFuel typeName classMap fieldTypeMap 1 [])

/-- Fuzzy scan of `analyzer.resolveImplementationClass` (strategy C): an
`...Impl` suffix hit returns immediately; otherwise the last plain-suffix
hit becomes the candidate. -/
def implFuzzyScan (sfx implSfx : String) : List (String × Nat) → Option Nat → Option Nat
  | [], cand => cand
  | (key, node) :: rest, cand =>
    if goEndsWith key implSfx then some node
    else implFuzzyScan sfx implSfx rest (if goEndsWith key sfx then some node else cand)

/-- `analyzer.resolveImplementationClass`. -/
def resolveImplementationClass (classMap : GoMap Nat) (targetType : String) : Option Nat :=
  match classMap.lookup targetType with
  | some node =>
    if goEndsWith targetType "Impl" then some node
    else
      match classMap.lookup (targetType ++ "Impl") with
      | some implNode => some implNode
      | none => some node
  | none =>
    match classMap.lookup (targetType ++ "Impl") with
    | some node => some node
    | none =>
      implFuzzyScan ("." ++ targetType) ("." ++ targetType ++ "Impl") classMap none

/-- `analyzer.isAmbiguousType`: void/Object/Map/raw collections and
Object/wildcard generics. -/
def isAmbiguousType (typeName : String) : Bool :=
  if typeName = "" ∨ typeName = "void" then true
  else if isDynamicType typeName then true
  else if goContains typeName "<Object>" ∨ goContains typeName "<?>" then true
  else if isCollectionType typeName ∧ ¬ goContains typeName "<" then true
  else false

/-! ### Patterns of `inferReturnType` and `inferMapSchema` -/

/-- Go pattern `return\s+new\s+([a-zA-Z0-9_<>,\s.]+)\s*\(`. -/
def patRetNew : RE :=
  rseq [rstr "return", rplus rs, rstr "new", rplus rs, .group 1 (rplus rtypeC), rstarG rs, rlp]

/-- Go pattern `new\s+[a-zA-Z0-9_<>]+(?:\(.*\))?\(\s*new\s+([a-zA-Z0-9_<>,\s.]+)\s*\(`. -/
def patRetWrapperNew : RE :=
  rseq [rstr "new", rplus rs, rplus ralnumUG, ropt (rseq [rlp, rstarG rdot, rrp]), rlp,
    rstarG rs, rstr "new", rplus rs, .group 1 (rplus rtypeC), rstarG rs, rlp]

/-- Go pattern `return\s+([a-zA-Z0-9_<>,\s.]+)\.builder\s*\(`. -/
def patRetBuilder : RE :=
  rseq [rstr "return", rplus rs, .group 1 (rplus rtypeC), rchar '.', rstr "builder",
    rstarG rs, rlp]

/-- Go pattern `return\s+new\s+[a-zA-Z0-9_<>]+(?:\(.*\))?\s*\(\s*([a-zA-Z0-9_]+)\s*(?:,|\))`. -/
def patRetWrappedVar : RE :=
  rseq [rstr "return", rplus rs, rstr "new", rplus rs, rplus ralnumUG,
    ropt (rseq [rlp, rstarG rdot, rrp]), rstarG rs, rlp, rstarG rs,
    .group 1 (rplus ralnumU), rstarG rs, .alt (rchar ',') rrp]

/-- Go pattern `(?:^|[;{}])\s*([A-Z][a-zA-Z0-9_<>]*)\s+%s\s*=` with the
(QuoteMeta-escaped, here word-only) variable spliced in. -/
def patDeclOf (v : String) : RE :=
  rseq [.alt .bol (roneOf [';', Char.ofNat 123, Char.ofNat 125]), rstarG rs,
    .group 1 rdeclType, rplus rs, rstr v, rstarG rs, rchar '=']

/-- `analyzer.inferReturnType`: infer a concrete return type from the body
(new-expression, wrapped new, builder, back-traced variable, naming
convention). -/
def inferReturnType (node : Node) (classMap : GoMap Nat) : String :=
  if node.body = "" then ""
  else
    match reFind patRetNew node.body with
    | some caps => capGet caps 1
    | none =>
    match reFind patRetWrapperNew node.body with
    | some caps => capGet caps 1
    | none =>
    match reFind patRetBuilder node.body with
    | some caps => capGet caps 1
    | none =>
    let viaVar :=
      match reFind patRetWrappedVar node.body with
      | some caps =>
        let varName := capGet caps 1
        if varName ≠ "null" ∧ varName ≠ "true" ∧ varName ≠ "false" then
          match reFind (patDeclOf varName) node.body with
          | some dcaps => capGet dcaps 1
          | none => ""
        else ""
      | none => ""
    if viaVar ≠ "" then viaVar
    else if goStartsWith node.method "get" then
      let baseName := goDrop node.method 3
      if baseName.length > 0 then
        let candidates := [baseName ++ "ResponseDto", baseName ++ "Response", baseName ++ "Dto"]
        match candidates.find? (fun candidate =>
            classMap.keys.any (fun key => goEndsWith key ("." ++ candidate) ∨ key = candidate)) with
        | some candidate => candidate
        | none => ""
      else ""
    else ""

/-- Go pattern `return\s+(?P<Var>\w+)\s*;` (strategy 1, direct return). -/
def patDirectRet : RE :=
  rseq [rstr "return", rplus rs, .group 1 (rplus rw), rstarG rs, rchar ';']

/-- Go pattern `return\s+new\s+[a-zA-Z0-9_<>]+(?:\(.*\))?\s*\(\s*(?P<Var>\w+)\s*(?:,|\))`
(strategy 1, constructor-wrapped return). -/
def patWrappedRet : RE :=
  rseq [rstr "return", rplus rs, rstr "new", rplus rs, rplus ralnumUG,
    ropt (rseq [rlp, rstarG rdot, rrp]), rstarG rs, rlp, rstarG rs,
    .group 1 (rplus rw), rstarG rs, .alt (rchar ',') rrp]

/-- Go pattern `return\s+[a-zA-Z0-9_]+\.[a-zA-Z0-9_]+\s*\(\s*(?P<Var>\w+)\s*(?:,|\))`
(strategy 1, static-factory return). -/
def patFactoryRet : RE :=
  rseq [rstr "return", rplus rs, rplus ralnumU, rchar '.', rplus ralnumU, rstarG rs,
    rlp, rstarG rs, .group 1 (rplus rw), rstarG rs, .alt (rchar ',') rrp]

/-- Go pattern `\b(?:Map|HashMap|LinkedHashMap|ModelMap)(?:<.*?>)?\s+\b%s\b\s*=`
(verify the target variable is declared as a map flavor). -/
def patMapDeclOf (v : String) : RE :=
  rseq [.bound,
    .alt (rstr "Map") (.alt (rstr "HashMap") (.alt (rstr "LinkedHashMap") (rstr "ModelMap"))),
    ropt (rseq [rchar '<', rstarL rdot, rchar '>']),
    rplus rs, .bound, rstr v, .bound, rstarG rs, rchar '=']

/-- Go pattern `\b%s\.put\(\s*"([^"]+)"\s*,\s*(.*?)\s*\);` (strategy 1 put scan). -/
def patPutOf (v : String) : RE :=
  rseq [.bound, rstr v, rchar '.', rstr "put", rlp, rstarG rs, rchar (Char.ofNat 34),
    .group 1 (rplus (.cls (fun c => c ≠ Char.ofNat 34))), rchar (Char.ofNat 34),
    rstarG rs, rchar ',', rstarG rs, .group 2 (rstarL rdot), rstarG rs, rrp, rchar ';']

/-- Go pattern `(?s)\b%s\.put\(\s*"([^"]+)"\s*,\s*(.*?)\s*\);` (strategy 3,
relaxed multiline put scan). -/
def patPutBlindOf (v : String) : RE :=
  rseq [.bound, rstr v, rchar '.', rstr "put", rlp, rstarG rs, rchar (Char.ofNat 34),
    .group 1 (rplus (.cls (fun c => c ≠ Char.ofNat 34))), rchar (Char.ofNat 34),
    rstarG rs, rchar ',', rstarG rs, .group 2 (rstarL rdotS), rstarG rs, rrp, rchar ';']

/-- Go pattern `new\s+([a-zA-Z0-9_<>,\s.]+)\s*\(` (put-value constructor). -/
def patNewValue : RE :=
  rseq [rstr "new", rplus rs, .group 1 (rplus rtypeC), rstarG rs, rlp]

/-- Go pattern `^\d+$` as a whole-string predicate. -/
def matchesAllDigits (s : String) : Bool :=
  s ≠ "" && s.data.all Char.isDigit

/-- Go pattern `(?s)return\s+(.*?);` (strategy 2, lazy return statement). -/
def patReturnStmt : RE :=
  rseq [rstr "return", rplus rs, .group 1 (rstarL rdotS), rchar ';']

/-- Go pattern `(\w+)\.(\w+)\(` (strategy 2 call candidates). -/
def patCallCand : RE :=
  rseq [.group 1 (rplus rw), rchar '.', .group 2 (rplus rw), rlp]

/-- Go pattern `(?P<Var>\w+)\s*=\s*new\s+(?:[\w\.]+\.)?(?:Hash|LinkedHash|Tree|Model|ConcurrentHash)Map`
(strategy 3, blind map-assignment scan). -/
def patMapBlind : RE :=
  rseq [.group 1 (rplus rw), rstarG rs, rchar '=', rstarG rs, rstr "new", rplus rs,
    ropt (rseq [rplus (.cls (fun c => isWordChar c || c = '.')), rchar '.']),
    .alt (rstr "Hash")
      (.alt (rstr "LinkedHash") (.alt (rstr "Tree") (.alt (rstr "Model") (rstr "ConcurrentHash")))),
    rstr "Map"]

/-- Go pattern `return\s+([a-zA-Z0-9_]+)\s*;` (strategy 4, simple return). -/
def patSimpleRet : RE :=
  rseq [rstr "return", rplus rs, .group 1 (rplus ralnumU), rstarG rs, rchar ';']

/-- Go pattern `return\s+[^;]*\(\s*([a-zA-Z0-9_]+)\s*\)` (strategy 4,
wrapped return). -/
def patComplexRet : RE :=
  rseq [rstr "return", rplus rs, rstarG (.cls (fun c => c ≠ ';')), rlp, rstarG rs,
    .group 1 (rplus ralnumU), rstarG rs, rrp]

/-- Go pattern `(?P<Type>[a-zA-Z0-9_<>\[\]]+)\s+\b%s\b\s*[:=;]` (strategy 4,
declaration of the return variable). -/
def patVarDeclOf (v : String) : RE :=
  rseq [.group 1 rtypeBr, rplus rs, .bound, rstr v, .bound, rstarG rs, roneOf [':', '=', ';']]

/-- The put-value type resolution shared verbatim by strategies 1 and 3:
constructor, string/bool/number literal, else a back-traced declaration,
defaulting to `Object`. -/
def resolvePutValueType (body valueStr : String) : String :=
  match reFind patNewValue valueStr with
  | some caps => capGet caps 1
  | none =>
    if goStartsWith valueStr (String.singleton (Char.ofNat 34)) then "String"
    else if valueStr = "true" ∨ valueStr = "false" then "boolean"
    else if matchesAllDigits valueStr then "int"
    else
      match reFind (patDeclOf valueStr) body with
      | some caps => capGet caps 1
      | none => "Object"

/-- One put-scan pass (the per-match body shared by strategies 1 and 3):
key becomes the name, the value type is inferred and pagination heuristics
applied; complex values recurse into schema resolution at depth 2. -/
def putScan (pat : RE) (body descr : String) (classMap : GoMap Nat)
    (fieldTypeMap : GoMap (GoMap String)) : List ParamDef :=
  (reFindAll pat body).foldl
    (fun results caps =>
      let key := capGet caps 1
      let valueStr := goTrimSpace (capGet caps 2)
      let valueType := resolvePutValueType body valueStr
      let valueType := applyTypeHeuristics key valueType
      let param : ParamDef :=
        { name := key, type := valueType, depth := 1, description := descr, fields := [] }
      let results := results ++ [param]
      if isComplexType valueType then
        results ++ resolveSchemaRecursive schemaFuel valueType classMap fieldTypeMap 2 []
      else results)
    []

/-- Strategy 2's candidate loop, phrased as a decision: either a schema to
return outright (concrete hop target) or the index of the target method
whose body the rescue recurses into.  Mirrors the nested loops of
`inferMapSchema`: first candidate that resolves through the parent's field
map to an implementation class owning a method of the called name wins. -/
def hopDecision (a : Arena) (classMap : GoMap Nat) (fieldTypeMap : GoMap (GoMap String))
    (node : Node) : List Caps → Option (List ParamDef ⊕ Nat)
  | [] => none
  | caps :: rest =>
    let varName := capGet caps 1
    let methodName := capGet caps 2
    let deeper := hopDecision a classMap fieldTypeMap node rest
    match node.parent with
    | none => deeper
    | some pIdx =>
      match fieldTypeMap.lookup (getN a pIdx).id with
      | none => deeper
      | some classFields =>
        match classFields.lookup varName with
        | none => deeper
        | some serviceType0 =>
          let serviceType := cleanTypeName serviceType0
          match resolveImplementationClass classMap serviceType with
          | none => deeper
          | some sIdx =>
            match (getN a sIdx).children.find? (fun cIdx => (getN a cIdx).method = methodName) with
            | none => deeper
            | some cIdx =>
              let child := getN a cIdx
              if child.returnDetail ≠ "" ∧ ¬ isAmbiguousType child.returnDetail then
                some (.inl (resolveSchema child.returnDetail classMap fieldTypeMap))
              else some (.inr cIdx)

/-- `analyzer.inferMapSchema`: the dynamic return-type rescue.  Strategy 1
(local map synthesis), strategy 2 (service hop, recursing with `fuel` for
the Go call stack), strategy 3 (blind map scan), strategy 4
(return-variable trace). -/
def inferMapSchema :
    Nat → Arena → Nat → GoMap Nat → GoMap (GoMap String) → List ParamDef
  | 0, _, _, _, _ => []
  | fuel + 1, a, nIdx, classMap, fieldTypeMap =>
    let node := getN a nIdx
    if node.body = "" then []
    else
      -- Strategy 1: local map inference
      let targetVar :=
        match reFind patDirectRet node.body with
        | some caps => capGet caps 1
        | none =>
          match reFind patWrappedRet node.body with
          | some caps => capGet caps 1
          | none =>
            match reFind patFactoryRet node.body with
            | some caps => capGet caps 1
            | none => ""
      let results1 :=
        if targetVar ≠ "" ∧ targetVar ≠ "null" ∧ targetVar ≠ "true" ∧ targetVar ≠ "false" ∧
            reMatch (patMapDeclOf targetVar) node.body then
          putScan (patPutOf targetVar) node.body "inferred map key" classMap fieldTypeMap
        else []
      if ¬ results1.isEmpty then deduplicateFields results1
      else
        -- Strategy 2: service hop
        let hop :=
          match reFind patReturnStmt node.body with
          | none => none
          | some caps =>
            let returnStmt := capGet caps 1
            hopDecision a classMap fieldTypeMap node (reFindAll patCallCand returnStmt)
        match hop with
        | some (.inl fields) => fields
        | some (.inr cIdx) => inferMapSchema fuel a cIdx classMap fieldTypeMap
        | none =>
          -- Strategy 3: blind map scan
          let blindVars :=
            ((reFindAll patMapBlind node.body).map (fun caps => capGet caps 1)).foldl
              (fun acc v => if acc.contains v then acc else acc ++ [v]) []
          let candidateVars :=
            if blindVars = [] then
              ["map", "result", "data", "res", "response"].filter
                (fun name => goContains node.body (name ++ ".put"))
            else blindVars
          let results3 :=
            candidateVars.foldl
              (fun results blindVar =>
                results ++
                  putScan (patPutBlindOf blindVar) node.body "scavenged map key"
                    classMap fieldTypeMap)
              []
          if ¬ results3.isEmpty then deduplicateFields results3
          else
            -- Strategy 4: return-variable trace
            let returnVar :=
              match reFind patSimpleRet node.body with
              | some caps => capGet caps 1
              | none =>
                match reFind patComplexRet node.body with
                | some caps => capGet caps 1
                | none => ""
            if returnVar ≠ "" ∧ returnVar ≠ "null" ∧ returnVar ≠ "true" ∧
                returnVar ≠ "false" then
              match reFind (patVarDeclOf returnVar) node.body with
              | some caps =>
                let declType := capGet caps 1
                let resolvedFields :=
                  if isSystemType declType then
                    [ { name := "result", type := declType,
                        description := "Return value (" ++ returnVar ++ ")", depth := 0,
                        fields := [] } ]
                  else resolveSchema declType classMap fieldTypeMap
                if ¬ resolvedFields.isEmpty then resolvedFields
                else deduplicateFields results3
              | none => deduplicateFields results3
            else deduplicateFields results3

/-- Fuel for the rescue's service-hop recursion (Go recurses on the call
stack; cyclic hops would not terminate there either). -/
def rescueFuel : Nat := 100

/-- `analyzer.extractHTTPMethod`: the annotation slot first (upper-cased),
else method-name prefix heuristics, else GET. -/
def extractHTTPMethod (method : Node) : String :=
  if method.annot ≠ "" then goToUpper method.annot
  else
    let methodName := goToLower method.method
    if goStartsWith methodName "get" ∨ goStartsWith methodName "list" ∨
        goStartsWith methodName "find" then "GET"
    else if goStartsWith methodName "create" ∨ goStartsWith methodName "add" ∨
        goStartsWith methodName "insert" then "POST"
    else if goStartsWith methodName "update" ∨ goStartsWith methodName "modify" then "PUT"
    else if goStartsWith methodName "delete" ∨ goStartsWith methodName "remove" then "DELETE"
    else "GET"

/-- Go `strings.TrimPrefix`. -/
def goTrimPrefixStr (s px : String) : String :=
  if goStartsWith s px then goDrop s px.length else s

/-- `analyzer.extractSummary`: first line with JavaDoc markers trimmed,
truncated at the first period strictly after position 0. -/
def extractSummary (comment : String) : String :=
  if comment = "" then ""
  else
    let lines := goSplit comment "\n"
    let firstLine := goTrimSpace (lines.getD 0 "")
    let firstLine := goTrimPrefixStr firstLine "/**"
    let firstLine := goTrimPrefixStr firstLine "/*"
    let firstLine := goTrimPrefixStr firstLine "*"
    let firstLine := goTrimSpace firstLine
    match goIndex firstLine "." with
    | some idx => if idx > 0 then goTake firstLine (idx + 1) else firstLine
    | none => firstLine

/-- `analyzer.extractSimpleName`: last dot-separated part. -/
def extractSimpleName (fullName : String) : String :=
  (goSplit fullName ".").getLastD fullName

/-- The annotation scan of `analyzer.parseParameter`: each `@` token may
set the location and description; `startIdx` is one past the last
annotation token. -/
def paramAnnotScan : List String → Nat → String × String × Nat → String × String × Nat
  | [], _, st => st
  | part :: rest, i, (inV, desc, startIdx) =>
    if goStartsWith part "@" then
      let lower := goToLower part
      let (inV, desc) :=
        if goContains lower "requestbody" then ("Body", "Request body")
        else if goContains lower "pathvariable" then ("Path", "Path variable")
        else if goContains lower "requestparam" then ("Query", "Query parameter")
        else if goContains lower "requestheader" then ("Header", "Header parameter")
        else (inV, desc)
      paramAnnotScan rest (i + 1) (inV, desc, i + 1)
    else paramAnnotScan rest (i + 1) (inV, desc, startIdx)

/-- `analyzer.parseParameter`: one `Type name` token with optional leading
annotations; location defaults by complexity; complex types get a resolved
schema. -/
def parseParameter (paramStr : String) (classMap : GoMap Nat)
    (fieldTypeMap : GoMap (GoMap String)) : Option ParamDef :=
  let parts := goFields paramStr
  if parts.length < 2 then none
  else
    let (inV, desc, startIdx) := paramAnnotScan parts 0 ("", "", 0)
    let remaining := parts.drop startIdx
    let (ty, nm) :=
      if remaining.length ≥ 2 then (remaining.getD 0 "", remaining.getD 1 "")
      else if remaining.length = 1 then (remaining.getD 0 "", "param")
      else ("", "")
    let (inV, desc) :=
      if inV = "" then
        if isComplexType ty then
          ("Body",
            if goEndsWith ty "DTO" ∨ goEndsWith ty "Dto" then ty ++ " (Data Transfer Object)"
            else ty ++ " (Object)")
        else ("Query", "Query parameter (" ++ ty ++ ")")
      else (inV, desc)
    let desc :=
      if desc = "Request body" ∧ isComplexType ty then
        if goEndsWith ty "DTO" ∨ goEndsWith ty "Dto" then ty ++ " (Data Transfer Object)"
        else ty ++ " (Object)"
      else desc
    let flds := if isComplexType ty then resolveSchema ty classMap fieldTypeMap else []
    some { name := nm, type := ty, «in» := inV, required := true, description := desc,
           depth := 0, fields := flds }

/-- `analyzer.extractParameters`: split the parameter string on commas. -/
def extractParameters (method : Node) (classMap : GoMap Nat)
    (fieldTypeMap : GoMap (GoMap String)) : List ParamDef :=
  if method.params = "" then []
  else
    (goSplit method.params ",").foldl
      (fun params part =>
        let part := goTrimSpace part
        if part = "" then params
        else
          match parseParameter part classMap fieldTypeMap with
          | some param => params ++ [param]
          | none => params)
      []

/-- `analyzer.extractResponse`: declared return type, concrete-return
inference for dynamic/wrapper types, map-schema rescue, description and
status-code selection, then plain schema resolution when no fields were
inferred. -/
def extractResponse (a : Arena) (mIdx : Nat) (classMap : GoMap Nat)
    (fieldTypeMap : GoMap (GoMap String)) : ResponseDef :=
  let node := getN a mIdx
  let response : ResponseDef :=
    { type := node.returnDetail, description := "Successful response", statusCode := 200,
      fields := [] }
  let response := if response.type = "" then { response with type := "void" } else response
  let response :=
    if isDynamicType response.type ∨ goContains response.type "Response" ∨
        goContains response.type "?" ∨ goContains response.type "Map" then
      let inferred := inferReturnType node classMap
      let response :=
        if inferred ≠ "" then { response with type := inferred } else response
      if isDynamicType response.type ∨ goContains response.type "Map" ∨
          goContains response.type "Response" then
        let virtualFields := inferMapSchema rescueFuel a mIdx classMap fieldTypeMap
        if ¬ virtualFields.isEmpty then { response with fields := virtualFields }
        else response
      else response
    else response
  let returnTypeL := goToLower response.type
  let response :=
    if goContains returnTypeL "modelandview" then
      { response with description := "Returns a view" }
    else if goContains returnTypeL "responseentity" then
      { response with description := "Returns response entity" }
    else if goContains returnTypeL "list" then
      { response with description := "Returns a list of items" }
    else if goContains returnTypeL "void" then
      { response with description := "No content", statusCode := 204 }
    else response
  if isComplexType response.type ∧ response.fields.isEmpty then
    { response with fields := resolveSchema response.type classMap fieldTypeMap }
  else response

/-- `analyzer.isViewEndpoint`: view return types, or a bare `String`
return without a ResponseBody marker in the annotation slot. -/
def isViewEndpoint (endpoint : EndpointDef) (method : Node) : Bool :=
  let returnType := endpoint.response.type
  if ["ModelAndView", "Model", "View", "RedirectView", "ModelMap"].any
      (fun viewType => goContains returnType viewType) then true
  else if returnType = "String" then ¬ goContains method.annot "ResponseBody"
  else false

/-- `analyzer.extractEndpointFromMethod` (never nil in the source). -/
def extractEndpointFromMethod (a : Arena) (cIdx mIdx : Nat) (classMap : GoMap Nat)
    (fieldTypeMap : GoMap (GoMap String)) : EndpointDef :=
  let controller := getN a cIdx
  let method := getN a mIdx
  let httpMethod := extractHTTPMethod method
  let httpMethod := if httpMethod = "" then "GET" else httpMethod
  let path := if method.url = "" then "/" ++ method.method else method.url
  { method := httpMethod
    path := path
    controllerName := extractSimpleName controller.id
    methodName := method.method
    summary := extractSummary method.comment
    description := method.comment
    params := extractParameters method classMap fieldTypeMap
    response := extractResponse a mIdx classMap fieldTypeMap }

/-- One method child of `analyzer.ExtractEndpoints`' inner loop: skip
non-controller methods, keywords, constructor-shaped names and view
endpoints; otherwise append the extracted endpoint. -/
def extractMethodStep (a : Arena) (cIdx : Nat) (classMap : GoMap Nat)
    (fieldTypeMap : GoMap (GoMap String)) (endpoints : List EndpointDef) (mIdx : Nat) :
    List EndpointDef :=
  if (getN a mIdx).type ≠ NodeType.controller then endpoints
  else if isJavaKeyword (getN a mIdx).method then endpoints
  else if goStartsWith (getN a mIdx).method "new " ∨ (getN a mIdx).method = "new" then endpoints
  else if isViewEndpoint (extractEndpointFromMethod a cIdx mIdx classMap fieldTypeMap)
      (getN a mIdx) then endpoints
  else endpoints ++ [extractEndpointFromMethod a cIdx mIdx classMap fieldTypeMap]

/-- One root of `analyzer.ExtractEndpoints`' outer loop. -/
def extractRootStep (a : Arena) (classMap : GoMap Nat) (fieldTypeMap : GoMap (GoMap String))
    (endpoints : List EndpointDef) (nIdx : Nat) : List EndpointDef :=
  if (getN a nIdx).type ≠ NodeType.controller then endpoints
  else (getN a nIdx).children.foldl (extractMethodStep a nIdx classMap fieldTypeMap) endpoints

/-- `analyzer.ExtractEndpoints`: controller roots only, controller-typed
method children only, keyword and constructor filters, then view-endpoint
suppression. -/
def extractEndpoints (a : Arena) (roots : List Nat) (classMap : GoMap Nat)
    (fieldTypeMap : GoMap (GoMap String)) : List EndpointDef :=
  roots.foldl (extractRootStep a classMap fieldTypeMap) []

/-! ## Endpoint ordering (documentation emitters)

`ExtractEndpoints` emits endpoints in pool iteration order; each
documentation emitter (the HTML exporter and the Word exporter alike) then
sorts the list by path with the identical comparator
(`sort.Slice(endpoints, func(i, j int) bool \x7b return endpoints[i].Path <
endpoints[j].Path \x7d)`).  The sort is modelled by insertion sort, whose
output realizes the sorted postcondition of `sort.Slice`. -/

/-- Go's byte-wise string order (`<`/`<=` on ASCII strings), as used by
the emitter's `sort.Slice` comparator. -/
def charListLe : List Char → List Char → Bool
  | [], _ => true
  | _ :: _, [] => false
  | a :: as, b :: bs =>
    if a.toNat < b.toNat then true
    else if a.toNat = b.toNat then charListLe as bs
    else false

/-- `a <= b` on paths (Go string order). -/
def pathLe (a b : String) : Bool := charListLe a.data b.data

/-- Insert one endpoint into a path-sorted list. -/
def insertByPath (e : EndpointDef) : List EndpointDef → List EndpointDef
  | [] => [e]
  | x :: xs => if pathLe e.path x.path then e :: x :: xs else x :: insertByPath e xs

/-- The documentation emitters' path sort (identical in the HTML and Word
exporters). -/
def sortEndpointsByPath (l : List EndpointDef) : List EndpointDef :=
  l.foldr insertByPath []

/-- Adjacent-pairs sortedness by path: `path[i] ≤ path[i+1]`. -/
def pathsSorted : List EndpointDef → Bool
  | [] => true
  | [_] => true
  | x :: y :: rest => pathLe x.path y.path && pathsSorted (y :: rest)

/-! ## Arena lemmas -/

theorem getN_set_self : ∀ (a : Arena) (i : Nat) (v : Node), i < a.length →
    getN (a.set i v) i = v
  | _ :: _, 0, _, _ => rfl
  | _ :: xs, n + 1, v, h => getN_set_self xs n v (Nat.lt_of_succ_lt_succ h)

theorem getN_set_ne : ∀ (a : Arena) (i j : Nat) (v : Node), i ≠ j →
    getN (a.set i v) j = getN a j
  | [], _, _, _, _ => rfl
  | _ :: _, 0, 0, _, h => absurd rfl h
  | _ :: _, 0, _ + 1, _, _ => rfl
  | _ :: _, _ + 1, 0, _, _ => rfl
  | _ :: xs, i + 1, j + 1, v, h =>
    getN_set_ne xs i j v (fun hij => h (congrArg Nat.succ hij))

theorem length_set (a : Arena) (i : Nat) (v : Node) : (a.set i v).length = a.length :=
  List.length_set a i v

theorem length_arenaModify (a : Arena) (i : Nat) (f : Node → Node) :
    (arenaModify a i f).length = a.length := length_set ..

theorem getN_arenaModify_self (a : Arena) (i : Nat) (f : Node → Node) (h : i < a.length) :
    getN (arenaModify a i f) i = f (getN a i) := getN_set_self a i _ h

theorem getN_arenaModify_ne (a : Arena) (i j : Nat) (f : Node → Node) (h : i ≠ j) :
    getN (arenaModify a i f) j = getN a j := getN_set_ne a i j _ h

theorem getN_oob : ∀ (a : Arena) (i : Nat), a.length ≤ i → getN a i = default
  | [], _, _ => rfl
  | _ :: xs, i + 1, h => getN_oob xs i (Nat.le_of_succ_le_succ h)

theorem getN_arenaModify (a : Arena) (i j : Nat) (f : Node → Node) :
    getN (arenaModify a i f) j =
      if j = i ∧ i < a.length then f (getN a i) else getN a j := by
  by_cases hij : j = i
  · subst hij
    by_cases hlt : j < a.length
    · simp [hlt, getN_arenaModify_self a j f hlt]
    · have hle : a.length ≤ j := Nat.le_of_not_lt hlt
      have : (arenaModify a j f).length ≤ j := by rw [length_arenaModify]; exact hle
      simp [hlt, getN_oob _ _ this, getN_oob a j hle]
  · simp [hij, getN_arenaModify_ne a i j f (fun h => hij h.symm)]

theorem length_addChild (a : Arena) (n c : Nat) : (addChild a n c).length = a.length := by
  unfold addChild
  split
  · rfl
  · simp [length_arenaModify]

/-- The linker's node mutations only extend children lists; identity,
variant tag, method name and return type are never changed. -/
def ArenaGrows (a b : Arena) : Prop :=
  b.length = a.length ∧
  ∀ i, (getN b i).id = (getN a i).id ∧
    (getN b i).type = (getN a i).type ∧
    (getN b i).method = (getN a i).method ∧
    (getN b i).returnDetail = (getN a i).returnDetail ∧
    ∃ l, (getN b i).children = (getN a i).children ++ l

theorem arenaGrows_refl (a : Arena) : ArenaGrows a a :=
  ⟨rfl, fun i => ⟨rfl, rfl, rfl, rfl, [], by simp⟩⟩

theorem arenaGrows_trans {a b c : Arena} (h₁ : ArenaGrows a b) (h₂ : ArenaGrows b c) :
    ArenaGrows a c := by
  refine ⟨h₂.1.trans h₁.1, fun i => ?_⟩
  obtain ⟨e₁, e₂, e₃, e₄, l₁, hl₁⟩ := h₁.2 i
  obtain ⟨f₁, f₂, f₃, f₄, l₂, hl₂⟩ := h₂.2 i
  exact ⟨f₁.trans e₁, f₂.trans e₂, f₃.trans e₃, f₄.trans e₄, l₁ ++ l₂, by
    rw [hl₂, hl₁, List.append_assoc]⟩

theorem grows_modify_children (a : Arena) (j : Nat) (l : List Nat) :
    ArenaGrows a (arenaModify a j (fun nd => { nd with children := nd.children ++ l })) := by
  refine ⟨length_arenaModify .., fun i => ?_⟩
  rw [getN_arenaModify]
  split
  next h =>
    rcases h with ⟨rfl, _⟩
    exact ⟨rfl, rfl, rfl, rfl, l, rfl⟩
  next h => exact ⟨rfl, rfl, rfl, rfl, [], (List.append_nil _).symm⟩

theorem grows_modify_parent (a : Arena) (j : Nat) (p : Option Nat) :
    ArenaGrows a (arenaModify a j (fun nd => { nd with parent := p })) := by
  refine ⟨length_arenaModify .., fun i => ?_⟩
  rw [getN_arenaModify]
  split
  next h =>
    rcases h with ⟨rfl, _⟩
    exact ⟨rfl, rfl, rfl, rfl, [], (List.append_nil _).symm⟩
  next h => exact ⟨rfl, rfl, rfl, rfl, [], (List.append_nil _).symm⟩

theorem addChild_grows (a : Arena) (n c : Nat) : ArenaGrows a (addChild a n c) := by
  unfold addChild
  split
  · exact arenaGrows_refl a
  · exact arenaGrows_trans (grows_modify_children a n [c]) (grows_modify_parent _ c (some n))

theorem foldl_grows {β : Type} (f : Arena → β → Arena)
    (hf : ∀ acc x, ArenaGrows acc (f acc x)) :
    ∀ (l : List β) (a : Arena), ArenaGrows a (l.foldl f a)
  | [], a => arenaGrows_refl a
  | x :: xs, a => arenaGrows_trans (hf a x) (foldl_grows f hf xs (f a x))

theorem arenaGrows_mem_children {a b : Arena} (h : ArenaGrows a b) {x i : Nat}
    (hm : x ∈ (getN a i).children) : x ∈ (getN b i).children := by
  obtain ⟨_, _, _, _, l, hl⟩ := h.2 i
  rw [hl]
  exact List.mem_append_left l hm

theorem linkOneCall_grows (pool : ComponentPool) (nodes : Arena) (mIdx : Nat)
    (cls : String) (call : MethodCall) :
    ArenaGrows nodes (linkOneCall pool nodes mIdx cls call) := by
  unfold linkOneCall
  split
  · exact arenaGrows_refl nodes
  split
  · exact arenaGrows_refl nodes
  split
  · exact arenaGrows_refl nodes
  split
  · exact arenaGrows_refl nodes
  split
  · exact arenaGrows_refl nodes
  split
  · exact arenaGrows_refl nodes
  · exact foldl_grows _ (fun acc x => addChild_grows acc mIdx x) _ nodes

theorem javaLinkStep_grows (pool : ComponentPool) (nodes : Arena) (kv : String × Nat) :
    ArenaGrows nodes (javaLinkStep pool nodes kv) := by
  unfold javaLinkStep
  split
  · exact arenaGrows_refl nodes
  split
  · exact arenaGrows_refl nodes
  · exact foldl_grows _ (fun acc c => linkOneCall_grows pool acc kv.snd _ c) _ nodes

theorem mapperLinkStep_grows (pool : ComponentPool) (nodes : Arena) (kv : String × Nat) :
    ArenaGrows nodes (mapperLinkStep pool nodes kv) := by
  unfold mapperLinkStep
  split
  · exact arenaGrows_refl nodes
  split
  · exact arenaGrows_refl nodes
  split
  · split
    · exact addChild_grows ..
    · exact arenaGrows_refl nodes
  · exact arenaGrows_refl nodes

theorem linkJavaMethods_grows (pool : ComponentPool) :
    ArenaGrows pool.nodes (linkJavaMethods pool).nodes :=
  foldl_grows _ (javaLinkStep_grows pool) _ pool.nodes

/-- Linking never touches the pool's indexes, only the node arena. -/
theorem linkJavaMethods_maps (pool : ComponentPool) :
    (linkJavaMethods pool).classMap = pool.classMap ∧
    (linkJavaMethods pool).methodMap = pool.methodMap ∧
    (linkJavaMethods pool).sqlMap = pool.sqlMap := ⟨rfl, rfl, rfl⟩

theorem string_length_zero {s : String} (h : s.length = 0) : s = "" := by
  cases s with
  | mk data =>
    cases data with
    | nil => rfl
    | cons c cs => simp [String.length] at h

theorem string_length_of_ne {s : String} (h : s ≠ "") : ¬ s.length = 0 :=
  fun h0 => h (string_length_zero h0)

/-- An accepted `AddChild` appends exactly the new pointer. -/
theorem addChild_children (a : Arena) (n c : Nat) (hn : n < a.length)
    (hc : goTrimSpace (getN a c).method ≠ "") :
    (getN (addChild a n c) n).children = (getN a n).children ++ [c] := by
  unfold addChild
  rw [if_neg (string_length_of_ne hc)]
  rw [getN_arenaModify]
  by_cases hcn : n = c ∧ c < (arenaModify a n fun nd =>
      { nd with children := nd.children ++ [c] }).length
  · rcases hcn with ⟨rfl, hlt⟩
    simp only [if_pos, and_self, hlt]
    rw [getN_arenaModify_self a n _ hn]
  · rw [if_neg hcn]
    rw [getN_arenaModify_self a n _ hn]

/-- A rejected `AddChild` (blank method) leaves the arena untouched. -/
theorem addChild_rejects (a : Arena) (n c : Nat)
    (hc : goTrimSpace (getN a c).method = "") : addChild a n c = a := by
  unfold addChild
  rw [if_pos (by rw [hc]; rfl)]

/-- An accepted `AddChild` reassigns the child's parent pointer. -/
theorem addChild_parent (a : Arena) (n c : Nat) (hc : goTrimSpace (getN a c).method ≠ "")
    (hlt : c < a.length) : (getN (addChild a n c) c).parent = some n := by
  unfold addChild
  rw [if_neg (string_length_of_ne hc)]
  rw [getN_arenaModify_self]
  rw [length_arenaModify]
  exact hlt

theorem gomap_lookup_set_self {α : Type} : ∀ (m : GoMap α) (k : String) (v : α),
    (m.set k v).lookup k = some v
  | [], k, v => by simp [GoMap.set, GoMap.lookup]
  | (k', v') :: rest, k, v => by
    by_cases h : k' = k
    · simp [GoMap.set, GoMap.lookup, h]
    · simp only [GoMap.set, if_neg h, GoMap.lookup]
      exact gomap_lookup_set_self rest k v

/-! ## Claim C2 — noise filtering on the S4 scenario

The controller method's body is the one fixed by the claim; the enclosing
class declares `userService : UserService`, and `UserService.processUser`
is registered.  Arena layout after registration: 0 = the controller class,
1 = its `testMethod`, 2 = the service class, 3 = `processUser`. -/

def c2Body : String :=
  "if (user != null) \x7b ModelAndView mav = new ModelAndView(\"home\"); String r = userService.processUser(user); System.out.println(\"x\"); return r; \x7d"

def c2Controller : JavaClass :=
  { pkg := "com.test"
    name := "TestController"
    annots := [{ name := "Controller" }]
    fields := [{ name := "userService", type := "UserService" }]
    methods := [{ name := "testMethod", returnType := "String", params := "User user",
                  body := c2Body }] }

def c2Service : JavaClass :=
  { pkg := "com.test"
    name := "UserService"
    annots := [{ name := "Service" }]
    methods := [{ name := "processUser", returnType := "String", params := "User user",
                  body := "return user.getName();" }] }

def c2Linked : ComponentPool := link (addJavaClass (addJavaClass {} c2Controller "") c2Service "")

/-- C2: on the fixed body, the linker attaches exactly one child edge to
the controller method — the edge to `UserService.processUser` — and hence
no edge named `if`, `new`, `ModelAndView`, `System`, `println` or
`return`. -/
theorem claim_C2_noise_filter :
    (getN c2Linked.nodes 1).children = [3] ∧
    (getN c2Linked.nodes 1).id = "com.test.TestController.testMethod" ∧
    (getN c2Linked.nodes 3).id = "com.test.UserService.processUser" ∧
    (getN c2Linked.nodes 3).method = "processUser" ∧
    (getN c2Linked.nodes 3).type = NodeType.service := by
  decide

/-! ## Claim C4 — duplicate children at add time -/

/-- Two method nodes; `run` (index 0) is the parent, `find` (index 1) the
child about to be attached twice. -/
def c4Arena : Arena :=
  [ { id := "com.x.Caller.run", method := "run" },
    { id := "com.x.Svc.find", method := "find" } ]

/-- C4 counterexample: adding a child whose id equals the id of an
existing child is *not* rejected — the same node attached twice yields two
children entries with the same id. -/
theorem claim_C4_counterexample :
    (getN (addChild (addChild c4Arena 0 1) 0 1) 0).children = [1, 1] ∧
    ((getN (addChild (addChild c4Arena 0 1) 0 1) 0).children.map
        (fun i => (getN (addChild (addChild c4Arena 0 1) 0 1) i).id)) =
      ["com.x.Svc.find", "com.x.Svc.find"] := by
  decide

/-- C4 amended: the add-child operation rejects only children whose method
name trims to the empty string; any other child is appended unconditionally,
so children with duplicate ids can accumulate. -/
theorem claim_C4_amended (a : Arena) (n c : Nat) (hn : n < a.length) :
    (goTrimSpace (getN a c).method ≠ "" →
      (getN (addChild a n c) n).children = (getN a n).children ++ [c]) ∧
    (goTrimSpace (getN a c).method = "" → addChild a n c = a) :=
  ⟨fun hc => addChild_children a n c hn hc, fun hc => addChild_rejects a n c hc⟩

theorem claim_C4_witness :
    0 < c4Arena.length ∧
    ((goTrimSpace (getN c4Arena 1).method ≠ "" →
        (getN (addChild c4Arena 0 1) 0).children = (getN c4Arena 0).children ++ [1]) ∧
      (goTrimSpace (getN c4Arena 1).method = "" → addChild c4Arena 0 1 = c4Arena)) :=
  ⟨by decide, claim_C4_amended c4Arena 0 1 (by decide)⟩

/-! ## Claim C6 — data-class suffix dropping at registration -/

/-- A `@Controller` class whose name ends (case-insensitively) in
`response`. -/
def c6Class : JavaClass :=
  { pkg := "com.test", name := "UserResponse", annots := [{ name := "Controller" }] }

def c6Pool : ComponentPool := addJavaClass {} c6Class ""

/-- C6 counterexample: the CONTROLLER-tagged class `com.test.UserResponse`
has a data-class suffix, yet registration keeps it in the class index. -/
theorem claim_C6_counterexample :
    c6Pool.classMap.lookup "com.test.UserResponse" = some 0 ∧
    (getN c6Pool.nodes 0).type = NodeType.controller ∧
    IsModelClass "com.test.UserResponse" = true := by
  decide

/-- C6 amended: no class is dropped at registration — `AddJavaClass`
unconditionally inserts the class node into the class index (data-class
suppression happens downstream, e.g. in summary statistics via
`IsModelClass`). -/
theorem claim_C6_amended (pool : ComponentPool) (jc : JavaClass) (src : String) :
    (addJavaClass pool jc src).classMap.lookup (jc.pkg ++ "." ++ jc.name) =
      some pool.nodes.length := by
  unfold addJavaClass
  exact gomap_lookup_set_self ..

/-! ## Claim C10 — parent-pointer clobbering and the service hop

Arena: 0 = service class (declares `getData`), 1 = `getData` (parented to
the class at registration), 2 = the controller class (whose field map
resolves `myService`), 3 = the controller method doing the rescue (parented
to its class), 4 = a second caller method. -/

def c10SvcBody : String :=
  "\x7b\n Map<String, Object> map = new HashMap<>();\n map.put(\"serviceKey\", \"serviceValue\");\n return map;\n\x7d"

def c10Arena : Arena :=
  [ { id := "com.example.MyService", type := .service, children := [1] },
    { id := "com.example.MyService.getData", type := .service, method := "getData",
      body := c10SvcBody, parent := some 0 },
    { id := "com.example.MyController", type := .controller, children := [3] },
    { id := "com.example.MyController.endpoint", type := .controller, method := "endpoint",
      body := "return new ResponseDto(myService.getData());", parent := some 2 },
    { id := "com.example.OtherController.caller", type := .controller, method := "caller" } ]

def c10CM : GoMap Nat := [("MyService", 0)]

def c10FTM : GoMap (GoMap String) :=
  [("com.example.MyController", [("myService", "MyService")])]

/-- Node 4 "calls" node 3: AddChild reassigns node 3's parent. -/
def c10Clobbered : Arena := addChild c10Arena 4 3

/-- C10: `AddChild` unconditionally reassigns the accepted child's parent
pointer to the attaching node, so the last caller wins; and the service-hop
strategy resolves the enclosing class through that pointer — with the
registration parent intact the hop recovers `serviceKey`, after a caller
clobbers the pointer the same rescue finds nothing. -/
theorem claim_C10_parent_clobber :
    (∀ (a : Arena) (n c : Nat), goTrimSpace (getN a c).method ≠ "" → c < a.length →
      (getN (addChild a n c) c).parent = some n) ∧
    (getN c10Arena 3).parent = some 2 ∧
    (getN c10Clobbered 3).parent = some 4 ∧
    (inferMapSchema rescueFuel c10Arena 3 c10CM c10FTM).map ParamDef.name = ["serviceKey"] ∧
    (inferMapSchema rescueFuel c10Clobbered 3 c10CM c10FTM).isEmpty = true :=
  ⟨fun a n c hc hlt => addChild_parent a n c hc hlt, by decide, by decide, by decide, by decide⟩

theorem claim_C10_witness :
    goTrimSpace (getN c10Arena 3).method ≠ "" ∧ 3 < c10Arena.length ∧
    (getN (addChild c10Arena 4 3) 3).parent = some 4 :=
  ⟨by decide, by decide, claim_C10_parent_clobber.1 c10Arena 4 3 (by decide) (by decide)⟩

/-! ## Claim C8 — idempotence of schema resolution

`resolveSchemaRecursive` enumerates the pool's field map with Go `range`,
whose order over a map is unspecified.  Two association lists that are
extensionally the same map but enumerate in different orders stand for two
runs of the same program state. -/

def c8CM : GoMap Nat := [("com.x.Foo", 0)]

def c8FieldsA : GoMap String := [("alpha", "String"), ("beta", "int")]

def c8FieldsB : GoMap String := [("beta", "int"), ("alpha", "String")]

/-- C8 counterexample: over the same field-type map (extensionally equal
contents), the flattened output differs in order between two enumeration
orders, so "structurally equal output" fails. -/
theorem claim_C8_counterexample :
    GoMap.equivTo c8FieldsA c8FieldsB = true ∧
    (resolveSchema "Foo" c8CM [("com.x.Foo", c8FieldsA)]).map ParamDef.name = ["alpha", "beta"] ∧
    (resolveSchema "Foo" c8CM [("com.x.Foo", c8FieldsB)]).map ParamDef.name = ["beta", "alpha"] := by
  decide

/-- C8 amended: schema resolution is a pure function of the type name and
the pool's maps *including their enumeration order* — with the same
enumeration two invocations agree (no hidden state survives a call: the
visited set is rebuilt per call), and across the counterexample's two
enumerations the outputs agree only up to permutation. -/
theorem claim_C8_amended :
    (∀ (t : String) (cm : GoMap Nat) (ftm : GoMap (GoMap String)),
      resolveSchema t cm ftm = resolveSchema t cm ftm) ∧
    ((resolveSchema "Foo" c8CM [("com.x.Foo", c8FieldsA)]).map
        (fun f => (f.name, f.type, f.depth))).Perm
      ((resolveSchema "Foo" c8CM [("com.x.Foo", c8FieldsB)]).map
        (fun f => (f.name, f.type, f.depth))) :=
  ⟨fun _ _ _ => rfl, by decide⟩

/-! ## Claim C9 — endpoint ordering -/

def c9Arena : Arena :=
  [ { id := "com.b.BCtrl", type := .controller, children := [1] },
    { id := "com.b.BCtrl.doB", type := .controller, method := "doB",
      returnDetail := "FooDto", url := "/b", annot := "GET" },
    { id := "com.a.ACtrl", type := .controller, children := [3] },
    { id := "com.a.ACtrl.doA", type := .controller, method := "doA",
      returnDetail := "FooDto", url := "/a", annot := "GET" } ]

/-- C9 counterexample: the list produced by the core's `ExtractEndpoints`
follows the (unspecified) class iteration order, not path order — for this
enumeration the emitted paths are out of order. -/
theorem claim_C9_counterexample :
    (extractEndpoints c9Arena [0, 2] [] []).map EndpointDef.path = ["/b", "/a"] ∧
    pathsSorted (extractEndpoints c9Arena [0, 2] [] []) = false := by
  decide

theorem charListLe_total : ∀ (a b : List Char), charListLe a b = false → charListLe b a = true
  | [], _, h => by simp [charListLe] at h
  | _ :: _, [], _ => rfl
  | a :: as, b :: bs, h => by
    simp only [charListLe] at h ⊢
    rcases Nat.lt_trichotomy a.toNat b.toNat with hlt | heq | hgt
    · rw [if_pos hlt] at h
      exact absurd h (by simp)
    · rw [if_neg (by omega), if_pos heq] at h
      rw [if_neg (by omega), if_pos heq.symm]
      exact charListLe_total as bs h
    · rw [if_pos hgt]

theorem pathLe_total (a b : String) (h : pathLe a b = false) : pathLe b a = true :=
  charListLe_total a.data b.data h

theorem pathsSorted_insert (e : EndpointDef) :
    ∀ (l : List EndpointDef), pathsSorted l = true → pathsSorted (insertByPath e l) = true
  | [], _ => rfl
  | [x], _ => by
    by_cases hex : pathLe e.path x.path = true
    · simp [insertByPath, hex, pathsSorted]
    · have hfalse : pathLe e.path x.path = false := by simpa using hex
      simp [insertByPath, hfalse, pathsSorted, pathLe_total _ _ hfalse]
  | x :: y :: r, hs => by
    have hs1 : pathLe x.path y.path = true ∧ pathsSorted (y :: r) = true := by
      simpa [pathsSorted, Bool.and_eq_true] using hs
    by_cases hex : pathLe e.path x.path = true
    · simp [insertByPath, hex, pathsSorted, Bool.and_eq_true, hs1.1, hs1.2]
    · have hfalse : pathLe e.path x.path = false := by simpa using hex
      have hxe : pathLe x.path e.path = true := pathLe_total _ _ hfalse
      have htail : pathsSorted (insertByPath e (y :: r)) = true :=
        pathsSorted_insert e (y :: r) hs1.2
      have hrw2 : insertByPath e (x :: y :: r) = x :: insertByPath e (y :: r) := by
        simp [insertByPath, hfalse]
      by_cases hey : pathLe e.path y.path = true
      · have hrw : insertByPath e (y :: r) = e :: y :: r := by simp [insertByPath, hey]
        rw [hrw2, hrw]
        simp only [pathsSorted, Bool.and_eq_true]
        exact ⟨hxe, hey, hs1.2⟩
      · have heyf : pathLe e.path y.path = false := by simpa using hey
        have hrw : insertByPath e (y :: r) = y :: insertByPath e r := by
          simp [insertByPath, heyf]
        rw [hrw] at htail
        rw [hrw2, hrw]
        simp only [pathsSorted, Bool.and_eq_true]
        exact ⟨hs1.1, htail⟩

/-- C9 amended: the core's endpoint list is unsorted (it follows pool
iteration order); the documentation emitters (HTML and Word) each sort it
by path before rendering, after which adjacent entries satisfy
`path[i] <= path[i+1]`. -/
theorem claim_C9_amended (l : List EndpointDef) :
    pathsSorted (sortEndpointsByPath l) = true := by
  induction l with
  | nil => rfl
  | cons x xs ih => exact pathsSorted_insert x (sortEndpointsByPath xs) ih

/-! ## Claim C3 — mapper methods own their SQL children after linking -/

/-- Processing the mapper-link fold over any entry list containing the
method's entry attaches the SQL node, and later entries never remove it. -/
theorem mapperFold_mem (q : ComponentPool) (a0 : Arena) (methodKey : String)
    (mIdx d cIdx sIdx : Nat)
    (hd : goLastIndex methodKey "." = some d)
    (hc : q.classMap.lookup (goTake methodKey d) = some cIdx)
    (htype : (getN a0 cIdx).type = NodeType.mapper)
    (hsql : q.sqlMap.lookup (goTake methodKey d ++ "." ++ (getN a0 mIdx).method) = some sIdx)
    (hblank : goTrimSpace (getN a0 sIdx).method ≠ "")
    (hlt : mIdx < a0.length) :
    ∀ (L : List (String × Nat)) (base : Arena), ArenaGrows a0 base →
      (methodKey, mIdx) ∈ L →
      sIdx ∈ (getN (L.foldl (mapperLinkStep q) base) mIdx).children := by
  intro L
  induction L with
  | nil => intro base _ hmem; cases hmem
  | cons kv rest ih =>
    intro base hgrow hmem
    rcases List.mem_cons.mp hmem with heq | htail
    · subst heq
      show sIdx ∈ (getN (rest.foldl (mapperLinkStep q) (mapperLinkStep q base (methodKey, mIdx))) mIdx).children
      have hstep : mapperLinkStep q base (methodKey, mIdx) = addChild base mIdx sIdx := by
        unfold mapperLinkStep
        rw [hd]
        simp only
        rw [hc]
        simp only
        have ht : (getN base cIdx).type = NodeType.mapper := by
          rw [(hgrow.2 cIdx).2.1, htype]
        rw [if_pos ht]
        have hm : (getN base mIdx).method = (getN a0 mIdx).method := (hgrow.2 mIdx).2.2.1
        rw [hm, hsql]
      rw [hstep]
      have hmem1 : sIdx ∈ (getN (addChild base mIdx sIdx) mIdx).children := by
        rw [addChild_children base mIdx sIdx (by rw [hgrow.1]; exact hlt)
          (by rw [(hgrow.2 sIdx).2.2.1]; exact hblank)]
        exact List.mem_append_right _ (List.mem_singleton.mpr rfl)
      exact arenaGrows_mem_children
        (foldl_grows _ (mapperLinkStep_grows q) rest (addChild base mIdx sIdx)) hmem1
    · exact ih (mapperLinkStep q base kv)
        (arenaGrows_trans hgrow (mapperLinkStep_grows q base kv)) htail

/-- C3: after the linker completes, every method of a MAPPER-tagged class
whose name has a SQL statement registered under `<className>.<methodName>`
carries that SQL node among its children.  Hypotheses state the registered
pool's shape: the entry is in the method index, the key splits at its last
dot into a class registered as MAPPER, the SQL index has the combined key,
and the SQL node's id (a statement id) is not blank. -/
theorem claim_C3_mapper_sql (pool : ComponentPool) (methodKey : String)
    (mIdx d cIdx sIdx : Nat)
    (hmem : (methodKey, mIdx) ∈ pool.methodMap)
    (hd : goLastIndex methodKey "." = some d)
    (hc : pool.classMap.lookup (goTake methodKey d) = some cIdx)
    (htype : (getN pool.nodes cIdx).type = NodeType.mapper)
    (hsql : pool.sqlMap.lookup
      (goTake methodKey d ++ "." ++ (getN pool.nodes mIdx).method) = some sIdx)
    (hblank : goTrimSpace (getN pool.nodes sIdx).method ≠ "")
    (hlt : mIdx < pool.nodes.length) :
    sIdx ∈ (getN (link pool).nodes mIdx).children := by
  show sIdx ∈ (getN (pool.methodMap.foldl (mapperLinkStep (linkJavaMethods pool))
    (linkJavaMethods pool).nodes) mIdx).children
  exact mapperFold_mem (linkJavaMethods pool) pool.nodes methodKey mIdx d cIdx sIdx
    hd hc htype hsql hblank hlt pool.methodMap (linkJavaMethods pool).nodes
    (linkJavaMethods_grows pool) hmem

/-- A registered mapper interface with one method and its mapper XML. -/
def c3MapperClass : JavaClass :=
  { pkg := "com.m", name := "UserMapper", annots := [{ name := "Mapper" }],
    methods := [{ name := "selectUser", returnType := "User" }] }

def c3Pool : ComponentPool :=
  addMapperXML (addJavaClass {} c3MapperClass "")
    { ns := "com.m.UserMapper",
      sqls := [{ id := "selectUser", type := "select", content := "SELECT 1" }] }

theorem claim_C3_witness : 2 ∈ (getN (link c3Pool).nodes 1).children :=
  claim_C3_mapper_sql c3Pool "com.m.UserMapper.selectUser" 1 16 0 2
    (by decide) (by decide) (by decide) (by decide) (by decide) (by decide) (by decide)

/-! ## Claim C5 — non-blank method names in the pool's indexes -/

/-- A registration run: the sequence of `AddJavaClass` / `AddMapperXML`
calls the scan phase performs on a fresh pool. -/
inductive RegOp where
  | java (jc : JavaClass) (src : String)
  | xml (mx : MapperXML)

def applyRegOp (pool : ComponentPool) : RegOp → ComponentPool
  | .java jc src => addJavaClass pool jc src
  | .xml mx => addMapperXML pool mx

def applyRegOps (ops : List RegOp) : ComponentPool :=
  ops.foldl applyRegOp {}

/-- The parsed inputs carry non-blank method names / statement ids. -/
def RegOpNamesOK : RegOp → Bool
  | .java jc _ => jc.methods.all (fun m => goTrimSpace m.name != "")
  | .xml mx => mx.sqls.all (fun s => goTrimSpace s.id != "")

/-- Every node reachable from the method or SQL index has a non-blank
method name (and a valid arena pointer). -/
def IndexNonBlank (pool : ComponentPool) : Prop :=
  (∀ kv ∈ pool.methodMap, kv.snd < pool.nodes.length ∧
      goTrimSpace (getN pool.nodes kv.snd).method ≠ "") ∧
  (∀ kv ∈ pool.sqlMap, kv.snd < pool.nodes.length ∧
      goTrimSpace (getN pool.nodes kv.snd).method ≠ "")

theorem regOpNamesOK_java {jc : JavaClass} {src : String}
    (h : RegOpNamesOK (.java jc src) = true) : ∀ m ∈ jc.methods, goTrimSpace m.name ≠ "" := by
  simpa [RegOpNamesOK, List.all_eq_true, bne_iff_ne] using h

theorem regOpNamesOK_xml {mx : MapperXML}
    (h : RegOpNamesOK (.xml mx) = true) : ∀ s ∈ mx.sqls, goTrimSpace s.id ≠ "" := by
  simpa [RegOpNamesOK, List.all_eq_true, bne_iff_ne] using h

theorem getN_append_left : ∀ (a b : Arena) (i : Nat), i < a.length →
    getN (a ++ b) i = getN a i
  | _ :: _, _, 0, _ => rfl
  | _ :: xs, b, i + 1, h => getN_append_left xs b i (Nat.lt_of_succ_lt_succ h)

theorem getN_append_self : ∀ (a : Arena) (v : Node), getN (a ++ [v]) a.length = v
  | [], _ => rfl
  | _ :: xs, v => getN_append_self xs v

/-- Method names survive the registration-phase arena mutations. -/
def MethodsKept (a b : Arena) : Prop :=
  a.length ≤ b.length ∧ ∀ i, i < a.length → (getN b i).method = (getN a i).method

theorem methodsKept_refl (a : Arena) : MethodsKept a a := ⟨Nat.le_refl _, fun _ _ => rfl⟩

theorem methodsKept_trans {a b c : Arena} (h₁ : MethodsKept a b) (h₂ : MethodsKept b c) :
    MethodsKept a c :=
  ⟨h₁.1.trans h₂.1, fun i hi => (h₂.2 i (Nat.lt_of_lt_of_le hi h₁.1)).trans (h₁.2 i hi)⟩

theorem methodsKept_append (a : Arena) (v : Node) : MethodsKept a (a ++ [v]) :=
  ⟨by simp, fun i hi => by rw [getN_append_left a [v] i hi]⟩

theorem methodsKept_nonblank {a b : Arena} (h : MethodsKept a b) {i : Nat}
    (hi : i < a.length) (hnb : goTrimSpace (getN a i).method ≠ "") :
    goTrimSpace (getN b i).method ≠ "" := by
  rw [h.2 i hi]
  exact hnb

theorem methodsKept_modify_children (a : Arena) (j : Nat) (l : List Nat) :
    MethodsKept a (arenaModify a j (fun n => { n with children := n.children ++ l })) := by
  refine ⟨by rw [length_arenaModify], fun i _ => ?_⟩
  rw [getN_arenaModify]
  split
  next h => rcases h with ⟨rfl, _⟩; rfl
  next => rfl

theorem length_addMethodStep (jc : JavaClass) (fcn : String) (ci : Nat) (ct : NodeType)
    (st : Arena × GoMap Nat × GoMap String) (m : JMethod) :
    (addMethodStep jc fcn ci ct st m).1.length = st.1.length + 1 := by
  unfold addMethodStep
  rw [length_arenaModify]
  simp

theorem methodsKept_addMethodStep (jc : JavaClass) (fcn : String) (ci : Nat) (ct : NodeType)
    (st : Arena × GoMap Nat × GoMap String) (m : JMethod) :
    MethodsKept st.1 (addMethodStep jc fcn ci ct st m).1 :=
  methodsKept_trans (methodsKept_append st.1 _) (methodsKept_modify_children _ ci _)

theorem gomap_mem_set {α : Type} : ∀ (m : GoMap α) (k : String) (v : α) (kv : String × α),
    kv ∈ m.set k v → kv ∈ m ∨ kv = (k, v)
  | [], k, v, kv, h => by
    simp [GoMap.set] at h
    exact Or.inr (by simp [h])
  | (k', v') :: rest, k, v, kv, h => by
    by_cases hk : k' = k
    · simp only [GoMap.set, if_pos hk] at h
      rcases List.mem_cons.mp h with heq | htail
      · exact Or.inr heq
      · exact Or.inl (List.mem_cons_of_mem _ htail)
    · simp only [GoMap.set, if_neg hk] at h
      rcases List.mem_cons.mp h with heq | htail
      · exact Or.inl (heq ▸ List.mem_cons_self _ _)
      · rcases gomap_mem_set rest k v kv htail with hm | he
        · exact Or.inl (List.mem_cons_of_mem _ hm)
        · exact Or.inr he

/-- Invariant preserved by one method-registration step. -/
theorem addMethodStep_inv (jc : JavaClass) (fcn : String) (ci : Nat) (ct : NodeType)
    (st : Arena × GoMap Nat × GoMap String) (m : JMethod)
    (hm : goTrimSpace m.name ≠ "")
    (h : ∀ kv ∈ st.2.1, kv.snd < st.1.length ∧ goTrimSpace (getN st.1 kv.snd).method ≠ "") :
    ∀ kv ∈ (addMethodStep jc fcn ci ct st m).2.1,
      kv.snd < (addMethodStep jc fcn ci ct st m).1.length ∧
      goTrimSpace (getN (addMethodStep jc fcn ci ct st m).1 kv.snd).method ≠ "" := by
  intro kv hkv
  have hlen := length_addMethodStep jc fcn ci ct st m
  have hkept := methodsKept_addMethodStep jc fcn ci ct st m
  rcases gomap_mem_set _ _ _ kv hkv with hold | hnew
  · obtain ⟨hlt, hnb⟩ := h kv hold
    refine ⟨by omega, ?_⟩
    rw [hkept.2 kv.snd hlt]
    exact hnb
  · subst hnew
    refine ⟨by simp [hlen], ?_⟩
    show goTrimSpace (getN (addMethodStep jc fcn ci ct st m).1 st.1.length).method ≠ ""
    have : (getN (addMethodStep jc fcn ci ct st m).1 st.1.length).method = m.name := by
      unfold addMethodStep
      rw [getN_arenaModify]
      split
      next hh =>
        rcases hh with ⟨he, _⟩
        show ({ getN (st.1 ++ [_]) ci with
          children := (getN (st.1 ++ [_]) ci).children ++ [st.1.length] } : Node).method = _
        rw [← he, getN_append_self]
      next => rw [getN_append_self]
    rw [this]
    exact hm

/-- Invariant and method preservation through the whole method fold. -/
theorem methodFold_inv (jc : JavaClass) (fcn : String) (ci : Nat) (ct : NodeType) :
    ∀ (methods : List JMethod) (st : Arena × GoMap Nat × GoMap String),
      (∀ m ∈ methods, goTrimSpace m.name ≠ "") →
      (∀ kv ∈ st.2.1, kv.snd < st.1.length ∧ goTrimSpace (getN st.1 kv.snd).method ≠ "") →
      (∀ kv ∈ (methods.foldl (addMethodStep jc fcn ci ct) st).2.1,
        kv.snd < (methods.foldl (addMethodStep jc fcn ci ct) st).1.length ∧
        goTrimSpace (getN (methods.foldl (addMethodStep jc fcn ci ct) st).1 kv.snd).method ≠ "") ∧
      MethodsKept st.1 (methods.foldl (addMethodStep jc fcn ci ct) st).1
  | [], st, _, h => ⟨h, methodsKept_refl st.1⟩
  | m :: ms, st, hok, h => by
    have step := addMethodStep_inv jc fcn ci ct st m (hok m (List.mem_cons_self m ms)) h
    have rest := methodFold_inv jc fcn ci ct ms (addMethodStep jc fcn ci ct st m)
      (fun x hx => hok x (List.mem_cons_of_mem m hx)) step
    exact ⟨rest.1, methodsKept_trans (methodsKept_addMethodStep jc fcn ci ct st m) rest.2⟩

theorem addJavaClass_inv (pool : ComponentPool) (jc : JavaClass) (src : String)
    (hok : ∀ m ∈ jc.methods, goTrimSpace m.name ≠ "") (h : IndexNonBlank pool) :
    IndexNonBlank (addJavaClass pool jc src) := by
  have hbase : ∀ (v : Node), ∀ kv ∈ pool.methodMap,
      kv.snd < (pool.nodes ++ [v]).length ∧
      goTrimSpace (getN (pool.nodes ++ [v]) kv.snd).method ≠ "" := by
    intro v kv hkv
    obtain ⟨hlt, hnb⟩ := h.1 kv hkv
    refine ⟨by simp; omega, ?_⟩
    rw [getN_append_left _ _ _ hlt]
    exact hnb
  have hfold := methodFold_inv jc (jc.pkg ++ "." ++ jc.name) pool.nodes.length
    (determineNodeType jc) jc.methods
    (pool.nodes ++
      [{ id := jc.pkg ++ "." ++ jc.name, type := determineNodeType jc, pkg := jc.pkg,
         method := "", children := [] }], pool.methodMap, pool.methodBodyMap)
    hok (hbase _)
  constructor
  · exact hfold.1
  · intro kv hkv
    obtain ⟨hlt, hnb⟩ := h.2 kv hkv
    have hkept := methodsKept_trans (methodsKept_append pool.nodes
      { id := jc.pkg ++ "." ++ jc.name, type := determineNodeType jc, pkg := jc.pkg,
        method := "", children := [] }) hfold.2
    exact ⟨Nat.lt_of_lt_of_le hlt hkept.1, methodsKept_nonblank hkept hlt hnb⟩

theorem addSQLStep_inv (ns : String) (pool : ComponentPool) (sql : SQLStmt)
    (hid : goTrimSpace sql.id ≠ "") (h : IndexNonBlank pool) :
    IndexNonBlank (addSQLStep ns pool sql) := by
  constructor
  · intro kv hkv
    obtain ⟨hlt, hnb⟩ := h.1 kv hkv
    refine ⟨by simp [addSQLStep]; omega, ?_⟩
    show goTrimSpace (getN (pool.nodes ++ [_]) kv.snd).method ≠ ""
    rw [getN_append_left _ _ _ hlt]
    exact hnb
  · intro kv hkv
    rcases gomap_mem_set _ _ _ kv hkv with hold | hnew
    · obtain ⟨hlt, hnb⟩ := h.2 kv hold
      refine ⟨by simp [addSQLStep]; omega, ?_⟩
      show goTrimSpace (getN (pool.nodes ++ [_]) kv.snd).method ≠ ""
      rw [getN_append_left _ _ _ hlt]
      exact hnb
    · subst hnew
      refine ⟨by simp [addSQLStep], ?_⟩
      show goTrimSpace (getN (pool.nodes ++ [_]) pool.nodes.length).method ≠ ""
      rw [getN_append_self]
      exact hid

theorem sqlFold_inv (ns : String) : ∀ (sqls : List SQLStmt) (pool : ComponentPool),
    (∀ s ∈ sqls, goTrimSpace s.id ≠ "") → IndexNonBlank pool →
    IndexNonBlank (sqls.foldl (addSQLStep ns) pool)
  | [], _, _, h => h
  | s :: rest, pool, hok, h =>
    sqlFold_inv ns rest (addSQLStep ns pool s)
      (fun x hx => hok x (List.mem_cons_of_mem s hx))
      (addSQLStep_inv ns pool s (hok s (List.mem_cons_self s rest)) h)

theorem addMapperXML_inv (pool : ComponentPool) (mx : MapperXML)
    (hok : ∀ s ∈ mx.sqls, goTrimSpace s.id ≠ "") (h : IndexNonBlank pool) :
    IndexNonBlank (addMapperXML pool mx) :=
  sqlFold_inv mx.ns mx.sqls pool hok h

theorem applyRegOps_inv : ∀ (ops : List RegOp) (pool : ComponentPool),
    (∀ op ∈ ops, RegOpNamesOK op = true) → IndexNonBlank pool →
    IndexNonBlank (ops.foldl applyRegOp pool)
  | [], _, _, h => h
  | op :: rest, pool, hok, h => by
    have hstep : IndexNonBlank (applyRegOp pool op) := by
      cases op with
      | java jc src =>
        exact addJavaClass_inv pool jc src
          (regOpNamesOK_java (hok _ (List.mem_cons_self _ _))) h
      | xml mx =>
        exact addMapperXML_inv pool mx
          (regOpNamesOK_xml (hok _ (List.mem_cons_self _ _))) h
    exact applyRegOps_inv rest (applyRegOp pool op)
      (fun x hx => hok x (List.mem_cons_of_mem op hx)) hstep

/-- C5 amended: over any registration run whose parsed method names and
SQL statement ids are non-blank, every node reachable from the pool's
method and SQL indexes has a non-blank method; and the add-child operation
rejects any child whose method trims to the empty string.  (Class-index
nodes, by contrast, are stored with an empty method — see the
counterexample.) -/
theorem claim_C5_amended (ops : List RegOp) (hok : ∀ op ∈ ops, RegOpNamesOK op = true) :
    IndexNonBlank (applyRegOps ops) ∧
    (∀ (a : Arena) (n c : Nat), goTrimSpace (getN a c).method = "" → addChild a n c = a) := by
  constructor
  · exact applyRegOps_inv ops {} hok ⟨(fun _ hkv => by cases hkv), (fun _ hkv => by cases hkv)⟩
  · exact fun a n c hc => addChild_rejects a n c hc

def c5Ops : List RegOp :=
  [ .java c3MapperClass "",
    .xml { ns := "com.m.UserMapper",
           sqls := [{ id := "selectUser", type := "select", content := "SELECT 1" }] } ]

theorem claim_C5_witness :
    IndexNonBlank (applyRegOps c5Ops) ∧
    (∀ (a : Arena) (n c : Nat), goTrimSpace (getN a c).method = "" → addChild a n c = a) :=
  claim_C5_amended c5Ops (by decide)

/-- C5 counterexample: registration stores the class node itself in the
classes index with an *empty* method field, so "every Node stored in any
of the pool's indexes has a non-empty method" fails on the classes index. -/
theorem claim_C5_counterexample :
    c6Pool.classMap.lookup "com.test.UserResponse" = some 0 ∧
    (getN c6Pool.nodes 0).method = "" := by
  decide

/-! ## Claim C7 — view-endpoint suppression -/

/-- The per-method emission decision of `ExtractEndpoints`, as an option:
`none` exactly when the extractor's filters (non-controller type, keyword,
constructor-shaped name, view-endpoint check on the *extracted* endpoint)
suppress the method. -/
def emitDecision (a : Arena) (cIdx mIdx : Nat) (classMap : GoMap Nat)
    (fieldTypeMap : GoMap (GoMap String)) : Option EndpointDef :=
  if (getN a mIdx).type ≠ NodeType.controller then none
  else if isJavaKeyword (getN a mIdx).method then none
  else if goStartsWith (getN a mIdx).method "new " ∨ (getN a mIdx).method = "new" then none
  else if isViewEndpoint (extractEndpointFromMethod a cIdx mIdx classMap fieldTypeMap)
      (getN a mIdx) then none
  else some (extractEndpointFromMethod a cIdx mIdx classMap fieldTypeMap)

theorem extractMethodStep_eq (a : Arena) (cIdx : Nat) (cm : GoMap Nat)
    (ftm : GoMap (GoMap String)) (eps : List EndpointDef) (mIdx : Nat) :
    extractMethodStep a cIdx cm ftm eps mIdx =
      eps ++ (emitDecision a cIdx mIdx cm ftm).toList := by
  unfold extractMethodStep emitDecision
  split
  · simp
  split
  · simp
  split
  · simp
  split
  · simp
  · simp

theorem methodFold_eq (a : Arena) (cIdx : Nat) (cm : GoMap Nat)
    (ftm : GoMap (GoMap String)) : ∀ (l : List Nat) (init : List EndpointDef),
    l.foldl (extractMethodStep a cIdx cm ftm) init =
      init ++ l.filterMap (fun mIdx => emitDecision a cIdx mIdx cm ftm)
  | [], init => by simp
  | x :: xs, init => by
    rw [List.foldl_cons, extractMethodStep_eq, methodFold_eq a cIdx cm ftm xs,
      List.filterMap_cons]
    cases emitDecision a cIdx x cm ftm with
    | none => simp
    | some e => simp

theorem rootFold_eq (a : Arena) (cm : GoMap Nat) (ftm : GoMap (GoMap String)) :
    ∀ (roots : List Nat) (init : List EndpointDef),
    roots.foldl (extractRootStep a cm ftm) init =
      init ++ roots.flatMap (fun nIdx =>
        if (getN a nIdx).type ≠ NodeType.controller then []
        else (getN a nIdx).children.filterMap (fun mIdx => emitDecision a nIdx mIdx cm ftm))
  | [], init => by simp
  | x :: xs, init => by
    rw [List.foldl_cons, List.flatMap_cons]
    rw [rootFold_eq a cm ftm xs]
    unfold extractRootStep
    split
    · simp
    · rw [methodFold_eq]
      simp

/-- C7 amended: an EndpointDef is emitted for a controller method unless
the method node is not controller-typed, its name is a keyword or
constructor-shaped, or the view check holds of the endpoint the extractor
*computed* — whose response type is the declared type possibly replaced by
body-based inference (so suppression is decided on the inferred type, not
the declared one). -/
theorem claim_C7_amended (a : Arena) (roots : List Nat) (cm : GoMap Nat)
    (ftm : GoMap (GoMap String)) :
    extractEndpoints a roots cm ftm =
      roots.flatMap (fun nIdx =>
        if (getN a nIdx).type ≠ NodeType.controller then []
        else (getN a nIdx).children.filterMap (fun mIdx => emitDecision a nIdx mIdx cm ftm)) ∧
    (∀ cIdx mIdx, emitDecision a cIdx mIdx cm ftm = none ↔
      ((getN a mIdx).type ≠ NodeType.controller ∨
        isJavaKeyword (getN a mIdx).method = true ∨
        goStartsWith (getN a mIdx).method "new " = true ∨
        (getN a mIdx).method = "new" ∨
        isViewEndpoint (extractEndpointFromMethod a cIdx mIdx cm ftm)
          (getN a mIdx) = true)) := by
  constructor
  · show roots.foldl (extractRootStep a cm ftm) [] = _
    rw [rootFold_eq]
    simp
  · intro cIdx mIdx
    unfold emitDecision
    split
    next h => simp [h]
    next h1 =>
      split
      next h => simp [h, h1]
      next h2 =>
        split
        next h => rcases h with h | h <;> simp [h, h1, h2]
        next h3 =>
          push_neg at h3
          split
          next h => simp [h, h1, h2, h3.1, h3.2]
          next h4 => simp [h1, h2, h3.1, h3.2, h4]

/-- A controller whose method declares `ModelMap` but whose body returns a
concrete constructor; a sibling with no body stays suppressed. -/
def c7Arena : Arena :=
  [ { id := "com.test.FooController", type := .controller, children := [1, 2] },
    { id := "com.test.FooController.doThing", type := .controller, method := "doThing",
      returnDetail := "ModelMap", body := "return new Foo();", annot := "GET",
      url := "/foo/do" },
    { id := "com.test.FooController.showPage", type := .controller, method := "showPage",
      returnDetail := "ModelMap", body := "", annot := "GET", url := "/foo/page" } ]

/-- C7 counterexample: `doThing` declares a response type containing
`ModelMap`, which the claim says must never be emitted — yet an
EndpointDef for it is produced, because the body inference replaced the
type with `Foo` before the view check (the bodyless `showPage` sibling is
suppressed as claimed). -/
theorem claim_C7_counterexample :
    goContains (getN c7Arena 1).returnDetail "ModelMap" = true ∧
    (extractEndpoints c7Arena [0] [] []).map EndpointDef.methodName = ["doThing"] ∧
    (extractEndpoints c7Arena [0] [] []).map (fun e => e.response.type) = ["Foo"] := by
  decide

/-! ## Claim C1 — the four rescue strategies and their priority order

The four strategies of the dynamic return-type rescue, written out
individually as the specification describes them, to be compared with the
monolithic `inferMapSchema` translated from the source. -/

/-- Strategy 1, local map synthesis: find the returned variable (direct,
constructor-wrapped, or factory-wrapped), verify it is declared as a map
flavor, and collect its put calls. -/
def rescueStrategy1 (node : Node) (classMap : GoMap Nat)
    (fieldTypeMap : GoMap (GoMap String)) : List ParamDef :=
  let targetVar :=
    match reFind patDirectRet node.body with
    | some caps => capGet caps 1
    | none =>
      match reFind patWrappedRet node.body with
      | some caps => capGet caps 1
      | none =>
        match reFind patFactoryRet node.body with
        | some caps => capGet caps 1
        | none => ""
  if targetVar ≠ "" ∧ targetVar ≠ "null" ∧ targetVar ≠ "true" ∧ targetVar ≠ "false" ∧
      reMatch (patMapDeclOf targetVar) node.body then
    putScan (patPutOf targetVar) node.body "inferred map key" classMap fieldTypeMap
  else []

/-- Strategy 2, service hop: scan the return expression for call
candidates and resolve the first through the parent's field types into an
implementation class; a concrete-typed target delegates to schema
resolution (even when that resolves to nothing), an ambiguous one recurses
into the target's body. -/
def rescueStrategy2 (a : Arena) (classMap : GoMap Nat)
    (fieldTypeMap : GoMap (GoMap String)) (node : Node) : Option (List ParamDef ⊕ Nat) :=
  match reFind patReturnStmt node.body with
  | none => none
  | some caps => hopDecision a classMap fieldTypeMap node (reFindAll patCallCand (capGet caps 1))

/-- Strategy 3, blind map scan: any `ident = new …Map` variable, then the
conventional names, each put-scanned. -/
def rescueStrategy3 (node : Node) (classMap : GoMap Nat)
    (fieldTypeMap : GoMap (GoMap String)) : List ParamDef :=
  let blindVars :=
    ((reFindAll patMapBlind node.body).map (fun caps => capGet caps 1)).foldl
      (fun acc v => if acc.contains v then acc else acc ++ [v]) []
  let candidateVars :=
    if blindVars = [] then
      ["map", "result", "data", "res", "response"].filter
        (fun name => goContains node.body (name ++ ".put"))
    else blindVars
  candidateVars.foldl
    (fun results blindVar =>
      results ++
        putScan (patPutBlindOf blindVar) node.body "scavenged map key" classMap fieldTypeMap)
    []

/-- Strategy 4, return-variable trace: locate the returned identifier's
declared type; primitive types produce a single `result` field, complex
ones delegate to schema resolution. -/
def rescueStrategy4 (node : Node) (classMap : GoMap Nat)
    (fieldTypeMap : GoMap (GoMap String)) : List ParamDef :=
  let returnVar :=
    match reFind patSimpleRet node.body with
    | some caps => capGet caps 1
    | none =>
      match reFind patComplexRet node.body with
      | some caps => capGet caps 1
      | none => ""
  if returnVar ≠ "" ∧ returnVar ≠ "null" ∧ returnVar ≠ "true" ∧ returnVar ≠ "false" then
    match reFind (patVarDeclOf returnVar) node.body with
    | some caps =>
      let declType := capGet caps 1
      let resolvedFields :=
        if isSystemType declType then
          [ { name := "result", type := declType,
              description := "Return value (" ++ returnVar ++ ")", depth := 0,
              fields := [] } ]
        else resolveSchema declType classMap fieldTypeMap
      if ¬ resolvedFields.isEmpty then resolvedFields else []
    | none => []
  else []

/-- Guarding a list on its own non-emptiness is the identity. -/
theorem if_not_isEmpty_self {α : Type} (l : List α) :
    (if ¬ l.isEmpty then l else []) = l := by
  by_cases h : l.isEmpty = true
  · rw [List.isEmpty_iff] at h
    subst h
    simp
  · simp [h]

/-- Under an empty strategy-3 result, the source's inline strategy-4 shape
(with its `deduplicateFields results3` fallbacks) agrees with guarding the
standalone strategy-4 value on its own non-emptiness. -/
theorem rescueTail_eq (R3 : List ParamDef) (h3 : R3.isEmpty = true)
    (condV : Prop) [Decidable condV] (fo : Option Caps) (RF : Caps → List ParamDef) :
    (if condV then
      match fo with
      | some caps => if ¬ (RF caps).isEmpty then RF caps else deduplicateFields R3
      | none => deduplicateFields R3
    else deduplicateFields R3) =
    (if ¬ (if condV then
        match fo with
        | some caps => if ¬ (RF caps).isEmpty then RF caps else []
        | none => []
      else []).isEmpty then
      (if condV then
        match fo with
        | some caps => if ¬ (RF caps).isEmpty then RF caps else []
        | none => []
      else [])
    else []) := by
  have hd : deduplicateFields R3 = [] := by
    rw [List.isEmpty_iff] at h3
    subst h3
    rfl
  rw [hd]
  by_cases hc : condV
  · simp only [if_pos hc]
    cases fo with
    | none => simp
    | some caps => exact (if_not_isEmpty_self _).symm
  · simp only [if_neg hc]
    simp

/-- C1 amended: the rescue attempts the four strategies in the stated
order, but it does *not* always stop at the first strategy that yields one
or more fields: once the service hop (strategy 2) resolves a target, its
result is returned outright — a concrete-typed target's schema is returned
even when empty, and strategies 3 and 4 are skipped.  Strategies 1 and 3
do gate on having produced at least one field, and strategy 4 falls back
to the empty result. -/
theorem claim_C1_amended (fuel : Nat) (a : Arena) (nIdx : Nat) (cm : GoMap Nat)
    (ftm : GoMap (GoMap String)) :
    inferMapSchema (fuel + 1) a nIdx cm ftm =
      if (getN a nIdx).body = "" then []
      else if ¬ (rescueStrategy1 (getN a nIdx) cm ftm).isEmpty then
        deduplicateFields (rescueStrategy1 (getN a nIdx) cm ftm)
      else
        match rescueStrategy2 a cm ftm (getN a nIdx) with
        | some (.inl fields) => fields
        | some (.inr cIdx) => inferMapSchema fuel a cIdx cm ftm
        | none =>
          if ¬ (rescueStrategy3 (getN a nIdx) cm ftm).isEmpty then
            deduplicateFields (rescueStrategy3 (getN a nIdx) cm ftm)
          else if ¬ (rescueStrategy4 (getN a nIdx) cm ftm).isEmpty then
            rescueStrategy4 (getN a nIdx) cm ftm
          else [] := by
  simp only [inferMapSchema, rescueStrategy1, rescueStrategy2, rescueStrategy3,
    rescueStrategy4]
  refine if_congr Iff.rfl rfl ?_
  refine if_congr Iff.rfl rfl ?_
  refine congrArg _ (funext fun _ => ?_)
  refine if_ctx_congr Iff.rfl (fun _ => rfl) fun h3 => ?_
  exact rescueTail_eq _ (not_not.mp h3) _ _ _

/-- Body of the C1 counterexample's controller method: a local map is
filled, but the returned expression is a delegating service call. -/
def c1Body : String :=
  "Map<String, Object> m = new HashMap<String, Object>(); m.put(\x22k\x22, \x22v\x22); return svc.getData();"

def c1Arena : Arena :=
  [ { id := "com.ex.MyCtrl", type := .controller, children := [3] },
    { id := "com.ex.MyService", type := .service, children := [2] },
    { id := "com.ex.MyService.getData", type := .service, method := "getData",
      returnDetail := "UnknownDto", parent := some 1 },
    { id := "com.ex.MyCtrl.doStuff", type := .controller, method := "doStuff",
      body := c1Body, parent := some 0 } ]

def c1CM : GoMap Nat := [("com.ex.MyCtrl", 0), ("com.ex.MyService", 1)]

def c1FTM : GoMap (GoMap String) := [("com.ex.MyCtrl", [("svc", "MyService")])]

/-- C1 counterexample: the service hop (strategy 2) resolves `svc.getData`
to a concrete-typed target whose schema resolves to nothing, and that
empty result is returned — the rescue does *not* move on to the blind map
scan (strategy 3), which by itself would have yielded the field `k`.  So
the rescue does not stop at the first strategy that yields one or more
fields. -/
theorem claim_C1_counterexample :
    (inferMapSchema rescueFuel c1Arena 3 c1CM c1FTM).isEmpty = true ∧
    (rescueStrategy3 (getN c1Arena 3) c1CM c1FTM).map ParamDef.name = ["k"] := by
  decide

end SpecRecon
